import Mathlib

/-!
Verification of the pyluach Hebrew-calendar library.

Shallow embedding of `src/pyluach/utils.py`, `src/pyluach/dates.py`,
`src/pyluach/hebrewcal.py` and `src/pyluach/parshios.py`.

Number representation: all Julian-Day values in the source are half-integers
`n + 0.5` (midnight boundaries).  We represent such a value by the natural
number `N = jd + 0.5 = n + 1`, so e.g. the Hebrew-epoch offset `347996.5`
becomes `347997`.  Python's arbitrary-precision integers map to `ℕ`/`ℤ`;
Python `//` and `%` on non-negative values coincide with `Nat` division and
modulus.  Python floats are treated as exact reals, which matches the actual
float computations on the whole historical range considered here (all
intermediate float values are below 2^52 and the two decimal constants used
for Gregorian conversion are analysed exactly at their call sites).
-/

namespace Pyluach

/-! ## Hebrew calendar math, from `src/pyluach/utils.py` -/

/-- `_is_leap(year)`: `((7*year) + 1) % 19 < 7`. -/
def isLeap (year : ℕ) : Bool := (7 * year + 1) % 19 < 7

/-- `_elapsed_months(year)`: `(235 * year - 234) // 19`. -/
def elapsedMonths (year : ℕ) : ℕ := (235 * year - 234) / 19

/-- `parts_elapsed = 204 + 793*(months_elapsed%1080)` in `_elapsed_days`. -/
def partsElapsed (M : ℕ) : ℕ := 204 + 793 * (M % 1080)

/-- `hours_elapsed = 5 + 12*months_elapsed + 793*(months_elapsed//1080)
    + parts_elapsed//1080` in `_elapsed_days`. -/
def hoursElapsed (M : ℕ) : ℕ :=
  5 + 12 * M + 793 * (M / 1080) + partsElapsed M / 1080

/-- `conjunction_day = 1 + 29*months_elapsed + hours_elapsed//24`. -/
def conjunctionDay (M : ℕ) : ℕ := 1 + 29 * M + hoursElapsed M / 24

/-- `conjunction_parts = 1080 * (hours_elapsed%24) + parts_elapsed%1080`. -/
def conjunctionParts (M : ℕ) : ℕ :=
  1080 * (hoursElapsed M % 24) + partsElapsed M % 1080

/-- The disjunction guarding `alt_day = conjunction_day + 1` in
`_elapsed_days` (molad zaken and the two other postponement rules). -/
def rule123 (cd cp : ℕ) (leapY leapPrev : Bool) : Prop :=
  19440 ≤ cp ∨ (cd % 7 = 2 ∧ 9924 ≤ cp ∧ leapY = false)
    ∨ (cd % 7 = 1 ∧ 16789 ≤ cp ∧ leapPrev = true)

instance (cd cp : ℕ) (a b : Bool) : Decidable (rule123 cd cp a b) := by
  unfold rule123; infer_instance

/-- `if alt_day % 7 in [0, 3, 5]: alt_day += 1` in `_elapsed_days`. -/
def rule4 (altDay : ℕ) : ℕ :=
  if altDay % 7 = 0 ∨ altDay % 7 = 3 ∨ altDay % 7 = 5 then altDay + 1 else altDay

/-- `_elapsed_days(year)`: the postponed Rosh Hashana day number. -/
def elapsedDays (year : ℕ) : ℕ :=
  rule4 (if rule123 (conjunctionDay (elapsedMonths year))
      (conjunctionParts (elapsedMonths year)) (isLeap year) (isLeap (year - 1))
    then conjunctionDay (elapsedMonths year) + 1
    else conjunctionDay (elapsedMonths year))

/-- `_days_in_year(year)`: `_elapsed_days(year + 1) - _elapsed_days(year)`
(truncated subtraction is harmless: `elapsedDays` is monotone, see
`yearLen_leap`/`yearLen_common`). -/
def daysInYear (year : ℕ) : ℕ := elapsedDays (year + 1) - elapsedDays year

/-- `_long_cheshvan(year)`: `_days_in_year(year) % 10 == 5`. -/
def longCheshvan (year : ℕ) : Prop := daysInYear year % 10 = 5

instance : DecidablePred longCheshvan := fun y => by
  unfold longCheshvan; infer_instance

/-- `_short_kislev(year)`: `_days_in_year(year) % 10 == 3`. -/
def shortKislev (year : ℕ) : Prop := daysInYear year % 10 = 3

instance : DecidablePred shortKislev := fun y => by
  unfold shortKislev; infer_instance

/-- `_month_length(year, month)`.  The final catch-all `0` corresponds to the
source's `raise ValueError('Invalid month')`; every caller in the library
passes `1 ≤ month ≤ 13`, for which the source never raises. -/
def monthLength (year month : ℕ) : ℕ :=
  if month = 1 ∨ month = 3 ∨ month = 5 ∨ month = 7 ∨ month = 11 then 30
  else if month = 2 ∨ month = 4 ∨ month = 6 ∨ month = 10 ∨ month = 13 then 29
  else if month = 12 then (if isLeap year then 30 else 29)
  else if month = 8 then (if longCheshvan year then 30 else 29)
  else if month = 9 then (if shortKislev year then 29 else 30)
  else 0

/-- The month order `[7, 8, 9, 10, 11, 12, 13, 1, 2, 3, 4, 5, 6]` with `13`
removed in a common year, as built in `JulianDay.to_heb`, `HebrewDate.jd`
and `Year.__iter__`. -/
def monthsInYear (year : ℕ) : List ℕ :=
  if isLeap year then [7, 8, 9, 10, 11, 12, 13, 1, 2, 3, 4, 5, 6]
  else [7, 8, 9, 10, 11, 12, 1, 2, 3, 4, 5, 6]

/-! ## Year-length analysis

`_elapsed_days` is re-expressed through the total count of halakhic parts
`T = 765433 * months + 31524` (one lunar month is
`29*24*1080 + 12*1080 + 793 = 765433` parts and the epoch's molad is at
day 1, hour 5, part 204, i.e. `31524` parts), from which the year-length
bounds follow. -/

/-- `_elapsed_days` rewritten as a function of the total parts count. -/
def postponeT (T : ℕ) (leapY leapPrev : Bool) : ℕ :=
  rule4 (if rule123 (T / 25920) (T % 25920) leapY leapPrev
    then T / 25920 + 1 else T / 25920)

/-- The number of days added by the postponement rules, as a function of the
molad's weekday `w` and parts-of-day `p` alone. -/
def ppAdj (w p : ℕ) (leapY leapPrev : Bool) : ℕ :=
  rule4 (if rule123 w p leapY leapPrev then w + 1 else w) - w

lemma conjunctionDay_eq (M : ℕ) : conjunctionDay M = (765433 * M + 31524) / 25920 := by
  unfold conjunctionDay hoursElapsed partsElapsed; omega

lemma conjunctionParts_eq (M : ℕ) : conjunctionParts M = (765433 * M + 31524) % 25920 := by
  unfold conjunctionParts hoursElapsed partsElapsed; omega

lemma elapsedDays_T (y : ℕ) :
    elapsedDays y = postponeT (765433 * elapsedMonths y + 31524) (isLeap y) (isLeap (y - 1)) := by
  unfold elapsedDays postponeT
  rw [conjunctionDay_eq, conjunctionParts_eq]

/-- Across the 19-year cycle, a leap year has 13 months and a common year 12. -/
lemma elapsedMonths_succ (y : ℕ) (hy : 1 ≤ y) :
    elapsedMonths (y + 1) = elapsedMonths y + (if isLeap y then 13 else 12) := by
  obtain ⟨q, r, hr, rfl⟩ : ∃ q r, r < 19 ∧ y = 19 * q + r :=
    ⟨y / 19, y % 19, by omega, by omega⟩
  unfold elapsedMonths isLeap
  interval_cases r <;> simp only [decide_eq_true_eq] <;> split <;> omega

lemma rule4_mod (x w : ℕ) (h : x % 7 = w % 7) : rule4 x = x + (rule4 w - w) := by
  unfold rule4; split_ifs <;> omega

lemma rule4_bounds (x : ℕ) : x ≤ rule4 x ∧ rule4 x ≤ x + 1 := by
  unfold rule4; split_ifs <;> omega

lemma postponeT_split (T : ℕ) (l1 l0 : Bool) :
    postponeT T l1 l0 = T / 25920 + ppAdj (T / 25920 % 7) (T % 25920) l1 l0 := by
  unfold postponeT ppAdj
  have hr : rule123 (T / 25920) (T % 25920) l1 l0
      ↔ rule123 (T / 25920 % 7) (T % 25920) l1 l0 := by
    unfold rule123
    rw [Nat.mod_mod_of_dvd _ dvd_rfl]
  by_cases h : rule123 (T / 25920) (T % 25920) l1 l0
  · rw [if_pos h, if_pos (hr.mp h),
      rule4_mod (T / 25920 + 1) (T / 25920 % 7 + 1) (by omega)]
    all_goals
      have hb := rule4_bounds (T / 25920 % 7 + 1)
      omega
  · rw [if_neg h, if_neg (fun hh => h (hr.mpr hh)),
      rule4_mod (T / 25920) (T / 25920 % 7) (by omega)]
    all_goals
      have hb := rule4_bounds (T / 25920 % 7)
      omega

lemma ppAdj_char (w p : ℕ) (l1 l0 : Bool) :
    ppAdj w p l1 l0 =
      if rule123 w p l1 l0 then
        (if (w + 1) % 7 = 0 ∨ (w + 1) % 7 = 3 ∨ (w + 1) % 7 = 5 then 2 else 1)
      else (if w % 7 = 0 ∨ w % 7 = 3 ∨ w % 7 = 5 then 1 else 0) := by
  unfold ppAdj rule4; split_ifs <;> omega

set_option maxHeartbeats 1600000 in
/-- Core case analysis for a common year: twelve lunar months are
`354` days and `9516` parts, and the postponement adjustments of the two
consecutive Rosh Hashanas keep the year length inside `[353, 355]`. -/
lemma coreCommon (w p : ℕ) (hw : w < 7) (hp : p < 25920) (c : ℕ)
    (hc : c = if 16404 ≤ p then 1 else 0) (l0 l2 : Bool) :
    ppAdj w p false l0 + 353
      ≤ 354 + c + ppAdj ((w + 4 + c) % 7) (p + 9516 - 25920 * c) l2 false
    ∧ 354 + c + ppAdj ((w + 4 + c) % 7) (p + 9516 - 25920 * c) l2 false
      ≤ ppAdj w p false l0 + 355 := by
  rw [ppAdj_char, ppAdj_char]
  unfold rule123
  by_cases h16 : 16404 ≤ p <;> rw [hc] <;>
    [rw [if_pos h16]; rw [if_neg h16]] <;>
    cases l0 <;> cases l2 <;>
    simp only [eq_self_iff_true, Bool.true_eq_false, Bool.false_eq_true, true_and, and_true,
      false_and, and_false, true_or, or_true, false_or, or_false, not_true, not_false_iff] <;>
    split_ifs <;> omega

set_option maxHeartbeats 1600000 in
/-- Core case analysis for a leap year: thirteen lunar months are
`383` days and `23269` parts, and the year length stays inside `[383, 385]`. -/
lemma coreLeap (w p : ℕ) (hw : w < 7) (hp : p < 25920) (c : ℕ)
    (hc : c = if 2651 ≤ p then 1 else 0) (l0 l2 : Bool) :
    ppAdj w p true l0 + 383
      ≤ 383 + c + ppAdj ((w + 5 + c) % 7) (p + 23269 - 25920 * c) l2 true
    ∧ 383 + c + ppAdj ((w + 5 + c) % 7) (p + 23269 - 25920 * c) l2 true
      ≤ ppAdj w p true l0 + 385 := by
  rw [ppAdj_char, ppAdj_char]
  unfold rule123
  by_cases h2 : 2651 ≤ p <;> rw [hc] <;>
    [rw [if_pos h2]; rw [if_neg h2]] <;>
    cases l0 <;> cases l2 <;>
    simp only [eq_self_iff_true, Bool.true_eq_false, Bool.false_eq_true, true_and, and_true,
      false_and, and_false, true_or, or_true, false_or, or_false, not_true, not_false_iff] <;>
    split_ifs <;> omega

lemma transitionCommon (T : ℕ) (l0 l2 : Bool) :
    postponeT T false l0 + 353 ≤ postponeT (T + 765433 * 12) l2 false
    ∧ postponeT (T + 765433 * 12) l2 false ≤ postponeT T false l0 + 355 := by
  rw [postponeT_split, postponeT_split]
  set c : ℕ := if 16404 ≤ T % 25920 then 1 else 0 with hc
  have hd : (T + 765433 * 12) / 25920 = T / 25920 + 354 + c := by
    rw [hc]; split <;> omega
  have hp : (T + 765433 * 12) % 25920 = T % 25920 + 9516 - 25920 * c := by
    rw [hc]; split <;> omega
  have hw : (T + 765433 * 12) / 25920 % 7 = (T / 25920 % 7 + 4 + c) % 7 := by
    rw [hd]; omega
  rw [hw, hd, hp]
  have hcore := coreCommon (T / 25920 % 7) (T % 25920) (by omega) (by omega) c hc l0 l2
  omega

lemma transitionLeap (T : ℕ) (l0 l2 : Bool) :
    postponeT T true l0 + 383 ≤ postponeT (T + 765433 * 13) l2 true
    ∧ postponeT (T + 765433 * 13) l2 true ≤ postponeT T true l0 + 385 := by
  rw [postponeT_split, postponeT_split]
  set c : ℕ := if 2651 ≤ T % 25920 then 1 else 0 with hc
  have hd : (T + 765433 * 13) / 25920 = T / 25920 + 383 + c := by
    rw [hc]; split <;> omega
  have hp : (T + 765433 * 13) % 25920 = T % 25920 + 23269 - 25920 * c := by
    rw [hc]; split <;> omega
  have hw : (T + 765433 * 13) / 25920 % 7 = (T / 25920 % 7 + 5 + c) % 7 := by
    rw [hd]; omega
  rw [hw, hd, hp]
  have hcore := coreLeap (T / 25920 % 7) (T % 25920) (by omega) (by omega) c hc l0 l2
  omega

/-- Length bounds for a leap year. -/
theorem yearLen_leap (y : ℕ) (hy : 1 ≤ y) (hL : isLeap y = true) :
    elapsedDays y + 383 ≤ elapsedDays (y + 1)
    ∧ elapsedDays (y + 1) ≤ elapsedDays y + 385 := by
  rw [elapsedDays_T y, elapsedDays_T (y + 1), elapsedMonths_succ y hy]
  have hyy : y + 1 - 1 = y := by omega
  rw [hyy, hL]
  norm_num
  have h13 : 765433 * (elapsedMonths y + 13) + 31524
      = 765433 * elapsedMonths y + 31524 + 765433 * 13 := by ring
  rw [h13]
  exact transitionLeap _ _ _

/-- Length bounds for a common year. -/
theorem yearLen_common (y : ℕ) (hy : 1 ≤ y) (hL : isLeap y = false) :
    elapsedDays y + 353 ≤ elapsedDays (y + 1)
    ∧ elapsedDays (y + 1) ≤ elapsedDays y + 355 := by
  rw [elapsedDays_T y, elapsedDays_T (y + 1), elapsedMonths_succ y hy]
  have hyy : y + 1 - 1 = y := by omega
  rw [hyy, hL]
  norm_num
  have h12 : 765433 * (elapsedMonths y + 12) + 31524
      = 765433 * elapsedMonths y + 31524 + 765433 * 12 := by ring
  rw [h12]
  exact transitionCommon _ _ _

/-- The year length, in the convenient additive form. -/
theorem daysInYear_spec (y : ℕ) (hy : 1 ≤ y) :
    elapsedDays (y + 1) = elapsedDays y + daysInYear y
    ∧ (isLeap y = true → 383 ≤ daysInYear y ∧ daysInYear y ≤ 385)
    ∧ (isLeap y = false → 353 ≤ daysInYear y ∧ daysInYear y ≤ 355) := by
  unfold daysInYear
  cases hL : isLeap y
  · have h := yearLen_common y hy hL
    refine ⟨by omega, by simp, fun _ => by omega⟩
  · have h := yearLen_leap y hy hL
    refine ⟨by omega, fun _ => by omega, by simp⟩

/-! ## Julian Day to Hebrew date and back, from `src/pyluach/dates.py` -/

lemma conj_le_elapsedDays (y : ℕ) : conjunctionDay (elapsedMonths y) ≤ elapsedDays y := by
  unfold elapsedDays rule4; split_ifs <;> omega

lemma elapsedDays_lower (q : ℕ) : 365 * (q + 1) ≤ elapsedDays (q + 3) := by
  have h1 := conj_le_elapsedDays (q + 3)
  rw [conjunctionDay_eq] at h1
  unfold elapsedMonths at h1
  omega

lemma elapsedDays_one : elapsedDays 1 = 1 := by decide

lemma elapsedDays_lt_succ (y : ℕ) (hy : 1 ≤ y) : elapsedDays y < elapsedDays (y + 1) := by
  have h := daysInYear_spec y hy
  rcases h with ⟨he, hl, hc⟩
  cases hL : isLeap y
  · have := hc hL; omega
  · have := hl hL; omega

lemma elapsedDays_mono (y z : ℕ) (hy : 1 ≤ y) (hyz : y < z) :
    elapsedDays y < elapsedDays z := by
  induction z with
  | zero => omega
  | succ n ih =>
    rcases Nat.lt_or_ge y n with h | h
    · exact lt_trans (ih h) (elapsedDays_lt_succ n (by omega))
    · have : y = n := by omega
      subst this
      exact elapsedDays_lt_succ y hy

lemma elapsedDays_pos (y : ℕ) (hy : 1 ≤ y) : 1 ≤ elapsedDays y := by
  have h1 : elapsedDays 1 = 1 := elapsedDays_one
  rcases Nat.eq_or_lt_of_le hy with h | h
  · subst h
    omega
  · have h2 := elapsedDays_mono 1 y (by omega) h
    omega

/-- the `while first_day > jd: year -= 1` loop of `JulianDay.to_heb`,
counting down from the initial guess. -/
def findYear : ℕ → ℕ → ℕ
  | 0, _ => 0
  | y + 1, j => if j < elapsedDays (y + 1) then findYear y j else y + 1

/-- `year = int(jd//365) + 2` then the loop. -/
def hebYearFor (j : ℕ) : ℕ := findYear (j / 365 + 2) j

lemma findYear_spec (j : ℕ) (hj : 1 ≤ j) :
    ∀ y0, 1 ≤ y0 →
      1 ≤ findYear y0 j ∧ elapsedDays (findYear y0 j) ≤ j
      ∧ (findYear y0 j = y0 ∨ j < elapsedDays (findYear y0 j + 1)) := by
  intro y0
  induction y0 with
  | zero => omega
  | succ n ih =>
    intro _
    simp only [findYear]
    by_cases h : j < elapsedDays (n + 1)
    · rw [if_pos h]
      have hn : 1 ≤ n := by
        rcases Nat.eq_zero_or_pos n with h0 | h0
        · subst h0
          have h1 : elapsedDays 1 = 1 := elapsedDays_one
          norm_num at h
          omega
        · exact h0
      obtain ⟨h1, h2, h3⟩ := ih hn
      refine ⟨h1, h2, Or.inr ?_⟩
      rcases h3 with h3 | h3
      · rw [h3]; exact h
      · exact h3
    · rw [if_neg h]
      exact ⟨by omega, by omega, Or.inl rfl⟩

lemma findYear_exact (j y : ℕ) (hy : 1 ≤ y) :
    ∀ y0, y ≤ y0 → elapsedDays y ≤ j →
      (∀ z, y < z → z ≤ y0 → j < elapsedDays z) → findYear y0 j = y := by
  intro y0
  induction y0 with
  | zero => omega
  | succ n ih =>
    intro hy0 hle hgt
    simp only [findYear]
    rcases Nat.lt_or_ge y (n + 1) with h | h
    · rw [if_pos (hgt (n + 1) h (le_refl _))]
      exact ih (by omega) hle (fun z h1 h2 => hgt z h1 (by omega))
    · have : y = n + 1 := by omega
      subst this
      rw [if_neg (by omega)]

lemma hebYearFor_spec (j : ℕ) (hj : 1 ≤ j) :
    1 ≤ hebYearFor j ∧ elapsedDays (hebYearFor j) ≤ j
      ∧ j < elapsedDays (hebYearFor j + 1) := by
  unfold hebYearFor
  obtain ⟨h1, h2, h3⟩ := findYear_spec j hj (j / 365 + 2) (by omega)
  refine ⟨h1, h2, ?_⟩
  rcases h3 with h3 | h3
  · rw [h3]
    have hlow := elapsedDays_lower (j / 365)
    have h23 : j / 365 + 2 + 1 = j / 365 + 3 := by omega
    rw [h23]
    omega
  · exact h3

lemma hebYearFor_exact (j y : ℕ) (hy : 1 ≤ y)
    (hle : elapsedDays y ≤ j) (hlt : j < elapsedDays (y + 1)) :
    hebYearFor j = y := by
  unfold hebYearFor
  apply findYear_exact _ y hy
  · by_contra hcon
    push_neg at hcon
    have h3 : j / 365 + 3 ≤ y := by omega
    have hlow := elapsedDays_lower (j / 365)
    have hmono : elapsedDays (j / 365 + 3) ≤ elapsedDays y := by
      rcases Nat.eq_or_lt_of_le h3 with hq | hq
      · rw [hq]
      · exact le_of_lt (elapsedDays_mono _ _ (by omega) hq)
    omega
  · exact hle
  · intro z h1 h2
    have hz : elapsedDays (y + 1) ≤ elapsedDays z := by
      rcases Nat.eq_or_lt_of_le h1 with hq | hq
      · rw [← hq]
      · exact le_of_lt (elapsedDays_mono _ _ (by omega) hq)
    omega

/-- the month loop of `JulianDay.to_heb`:
`if days_remaining >= _month_length: subtract else return (month, days+1)`;
`none` models the implicit fall-through (no `return` hit). -/
def monthWalk (y : ℕ) : List ℕ → ℕ → Option (ℕ × ℕ)
  | [], _ => none
  | m :: ms, r =>
    if monthLength y m ≤ r then monthWalk y ms (r - monthLength y m)
    else some (m, r + 1)

/-- the accumulation loop of `HebrewDate.jd`: add up the lengths of the
months strictly before the first occurrence of `tgt`. -/
def sumUntil (y : ℕ) : List ℕ → ℕ → ℕ
  | [], _ => 0
  | m :: ms, tgt => if m ≠ tgt then monthLength y m + sumUntil y ms tgt else 0

/-- `HebrewDate.jd` as `N = jd + 0.5` (the source adds `347996.5`). -/
def hebJdN (y m d : ℕ) : ℕ :=
  elapsedDays y + sumUntil y (monthsInYear y) m + (d - 1) + 347997

/-- `JulianDay.to_heb`, with `N = day + 0.5`; `day <= 347997` raises
(`none`); the `return` inside the month loop is the `some` of
`monthWalk`, mapped to a full date triple; the loop's implicit
fall-through (returning no value) is `none`. -/
def toHeb (N : ℕ) : Option (ℕ × ℕ × ℕ) :=
  if N ≤ 347997 then none
  else
    (monthWalk (hebYearFor (N - 347997)) (monthsInYear (hebYearFor (N - 347997)))
        ((N - 347997) - elapsedDays (hebYearFor (N - 347997)))).map
      (fun md => (hebYearFor (N - 347997), md.1, md.2))

lemma monthWalk_complete (y : ℕ) :
    ∀ (ms : List ℕ) (r : ℕ), ms.Nodup → r < (ms.map (monthLength y)).sum →
      ∃ m d, monthWalk y ms r = some (m, d) ∧ m ∈ ms ∧ 1 ≤ d ∧ d ≤ monthLength y m
        ∧ sumUntil y ms m + (d - 1) = r := by
  intro ms
  induction ms with
  | nil => intro r _ hr; simp at hr
  | cons hd tl ih =>
    intro r hnd hr
    rw [List.map_cons, List.sum_cons] at hr
    by_cases h : monthLength y hd ≤ r
    · obtain ⟨m, d, hw, hm, hd1, hd2, hs⟩ :=
        ih (r - monthLength y hd) (List.Nodup.of_cons hnd) (by omega)
      have hne : hd ≠ m := by
        intro he
        subst he
        exact (List.nodup_cons.mp hnd).1 hm
      refine ⟨m, d, ?_, List.mem_cons_of_mem _ hm, hd1, hd2, ?_⟩
      · show (if monthLength y hd ≤ r then monthWalk y tl (r - monthLength y hd)
          else some (hd, r + 1)) = some (m, d)
        rw [if_pos h]; exact hw
      · show (if hd ≠ m then monthLength y hd + sumUntil y tl m else 0) + (d - 1) = r
        rw [if_pos hne]; omega
    · refine ⟨hd, r + 1, ?_, List.mem_cons_self _ _, by omega, by omega, ?_⟩
      · show (if monthLength y hd ≤ r then _ else some (hd, r + 1)) = some (hd, r + 1)
        rw [if_neg h]
      · show (if hd ≠ hd then _ else 0) + (r + 1 - 1) = r
        simp

lemma monthWalk_inverse (y : ℕ) :
    ∀ (ms : List ℕ) (m : ℕ), ms.Nodup → m ∈ ms →
      ∀ d, 1 ≤ d → d ≤ monthLength y m →
        monthWalk y ms (sumUntil y ms m + (d - 1)) = some (m, d) := by
  intro ms
  induction ms with
  | nil => intro m _ hm; simp at hm
  | cons hd tl ih =>
    intro m hnd hm d hd1 hd2
    by_cases he : hd = m
    · subst he
      show monthWalk y (hd :: tl) ((if hd ≠ hd then _ else 0) + (d - 1)) = _
      simp only [ne_eq, not_true_eq_false, if_false, ite_false, zero_add]
      show (if monthLength y hd ≤ d - 1 then _ else some (hd, d - 1 + 1)) = _
      rw [if_neg (by omega)]
      have hsd : d - 1 + 1 = d := by omega
      rw [hsd]
    · have hm' : m ∈ tl := by
        rcases List.mem_cons.mp hm with h | h
        · exact absurd h.symm he
        · exact h
      show monthWalk y (hd :: tl)
        ((if hd ≠ m then monthLength y hd + sumUntil y tl m else 0) + (d - 1)) = _
      rw [if_pos he]
      show (if monthLength y hd ≤ monthLength y hd + sumUntil y tl m + (d - 1) then
        monthWalk y tl (monthLength y hd + sumUntil y tl m + (d - 1) - monthLength y hd)
        else _) = _
      rw [if_pos (by omega)]
      have hsd : monthLength y hd + sumUntil y tl m + (d - 1) - monthLength y hd
          = sumUntil y tl m + (d - 1) := by omega
      rw [hsd]
      exact ih m (List.Nodup.of_cons hnd) hm' d hd1 hd2

lemma sumUntil_lt_sum (y : ℕ) :
    ∀ (ms : List ℕ) (m : ℕ), m ∈ ms →
      sumUntil y ms m + monthLength y m ≤ (ms.map (monthLength y)).sum := by
  intro ms
  induction ms with
  | nil => intro m hm; simp at hm
  | cons hd tl ih =>
    intro m hm
    rw [List.map_cons, List.sum_cons]
    by_cases he : hd = m
    · subst he
      show (if hd ≠ hd then _ else 0) + _ ≤ _
      simp
    · have hm' : m ∈ tl := by
        rcases List.mem_cons.mp hm with h | h
        · exact absurd h.symm he
        · exact h
      show (if hd ≠ m then monthLength y hd + sumUntil y tl m else 0) + _ ≤ _
      rw [if_pos he]
      have := ih m hm'
      omega

lemma monthsInYear_nodup (y : ℕ) : (monthsInYear y).Nodup := by
  unfold monthsInYear
  split <;> decide

lemma sum_monthsInYear (y : ℕ) (hy : 1 ≤ y) :
    ((monthsInYear y).map (monthLength y)).sum = daysInYear y := by
  obtain ⟨he, hl, hc⟩ := daysInYear_spec y hy
  unfold monthsInYear
  cases hL : isLeap y
  · have hb := hc hL
    simp only [Bool.false_eq_true, if_false, ite_false, List.map_cons, List.map_nil,
      List.sum_cons, List.sum_nil]
    unfold monthLength
    norm_num
    rw [hL]
    unfold longCheshvan shortKislev
    norm_num
    split_ifs <;> omega
  · have hb := hl hL
    simp only [if_true, ite_true, List.map_cons, List.map_nil,
      List.sum_cons, List.sum_nil]
    unfold monthLength
    norm_num
    rw [hL]
    unfold longCheshvan shortKislev
    norm_num
    split_ifs <;> omega

theorem toHeb_total (N : ℕ) (h : 347998 ≤ N) :
    ∃ y m d, toHeb N = some (y, m, d) ∧ hebJdN y m d = N
      ∧ 1 ≤ y ∧ m ∈ monthsInYear y ∧ 1 ≤ d ∧ d ≤ monthLength y m := by
  obtain ⟨j, hj, hjN⟩ : ∃ j, 1 ≤ j ∧ N - 347997 = j := ⟨N - 347997, by omega, rfl⟩
  unfold toHeb
  rw [if_neg (by omega), hjN]
  obtain ⟨hy1, hy2, hy3⟩ := hebYearFor_spec j hj
  obtain ⟨hyv, hyvN⟩ : ∃ yv, hebYearFor j = yv := ⟨_, rfl⟩
  rw [hyvN] at hy1 hy2 hy3 ⊢
  obtain ⟨he, _, _⟩ := daysInYear_spec hyv hy1
  have hr : j - elapsedDays hyv < ((monthsInYear hyv).map (monthLength hyv)).sum := by
    rw [sum_monthsInYear _ hy1]
    omega
  obtain ⟨m, d, hw, hm, hd1, hd2, hs⟩ :=
    monthWalk_complete _ _ _ (monthsInYear_nodup hyv) hr
  refine ⟨hyv, m, d, ?_, ?_, hy1, hm, hd1, hd2⟩
  · rw [hw]
    rfl
  · unfold hebJdN
    omega

theorem hebJdN_toHeb (y m d : ℕ) (hy : 1 ≤ y) (hm : m ∈ monthsInYear y)
    (hd1 : 1 ≤ d) (hd2 : d ≤ monthLength y m) :
    toHeb (hebJdN y m d) = some (y, m, d) := by
  have hsum := sumUntil_lt_sum y (monthsInYear y) m hm
  rw [sum_monthsInYear y hy] at hsum
  obtain ⟨he, _, _⟩ := daysInYear_spec y hy
  have hpos := elapsedDays_pos y hy
  obtain ⟨N, hN⟩ : ∃ N, hebJdN y m d = N := ⟨_, rfl⟩
  have hNval : elapsedDays y + sumUntil y (monthsInYear y) m + (d - 1) + 347997 = N := hN
  rw [hN]
  unfold toHeb
  rw [if_neg (by omega)]
  have hj : N - 347997 = elapsedDays y + sumUntil y (monthsInYear y) m + (d - 1) := by omega
  rw [hj]
  have hyr : hebYearFor (elapsedDays y + sumUntil y (monthsInYear y) m + (d - 1)) = y := by
    apply hebYearFor_exact _ y hy (by omega)
    omega
  have hsub : elapsedDays y + sumUntil y (monthsInYear y) m + (d - 1) - elapsedDays y
      = sumUntil y (monthsInYear y) m + (d - 1) := by omega
  rw [hyr, hsub,
    monthWalk_inverse y (monthsInYear y) m (monthsInYear_nodup y) hm d hd1 hd2]
  rfl

/-! ## Gregorian calendar, from `src/pyluach/dates.py`

`GregorianDate.jd` computes
`int(365.25*year) + int(30.6001*month) + b + day + 1720994.5`.
For `year ≥ 1` (the range considered here) `365.25*year` is an exact float
and `int` truncation equals `1461*year/4`; `int(30.6001*month)` is only ever
evaluated at `month ∈ 4..15` (after the `month < 3` adjustment), where the
float computation yields exactly the twelve values tabulated in `monthTerm`.
`JulianDay.to_greg` is the Fliegel-Van Flandern inverse; its successive
reassignments of `L` are modelled by the nested applications below, and all
Python `//` divisions act on non-negative operands in this range. -/

/-- `int(30.6001 * m)` for the reachable arguments `m ∈ 4..15`. -/
def monthTerm (m : ℕ) : ℕ :=
  if m = 4 then 122 else if m = 5 then 153 else if m = 6 then 183
  else if m = 7 then 214 else if m = 8 then 244 else if m = 9 then 275
  else if m = 10 then 306 else if m = 11 then 336 else if m = 12 then 367
  else if m = 13 then 397 else if m = 14 then 428 else 459

/-- `GregorianDate._is_leap` (for `year ≥ 1`; the source's `year < 0`
adjustment is outside the range modelled here). -/
def gregIsLeap (year : ℕ) : Prop :=
  year % 4 = 0 ∧ ¬(year % 100 = 0 ∧ year % 400 ≠ 0)

instance : DecidablePred gregIsLeap := fun y => by
  unfold gregIsLeap; infer_instance

/-- `GregorianDate._monthlength`. -/
def gregMonthLength (year month : ℕ) : ℕ :=
  if month = 1 ∨ month = 3 ∨ month = 5 ∨ month = 7 ∨ month = 8
      ∨ month = 10 ∨ month = 12 then 31
  else if month = 2 then (if gregIsLeap year then 29 else 28)
  else 30

/-- The validation of `GregorianDate.__init__`: month in `1..12` and day
within the month's length (it raises `ValueError` otherwise). -/
def gregValid (year month day : ℕ) : Prop :=
  1 ≤ month ∧ month ≤ 12 ∧ 1 ≤ day ∧ day ≤ gregMonthLength year month

/-- `GregorianDate.jd` as `N = jd + 0.5` (the source adds `1720994.5`), for
`year ≥ 1`.  The net postponement `b = 2 - a + a//4` is added as
`+ 2 + a/4 - a` (the total always dominates `a`, so the truncated
subtraction is exact). -/
def gregJdN (year month day : ℕ) : ℕ :=
  (fun y2 m2 =>
    (fun a => 1461 * y2 / 4 + monthTerm m2 + day + 1720995 + 2 + a / 4 - a) (y2 / 100))
  (if month < 3 then year - 1 else year)
  ((if month < 3 then month + 12 else month) + 1)

/-- `JulianDay.to_greg` (Fliegel-Van Flandern), with input `N = day + 0.5`.
The final `if year < 1: year -= 1` of the source is kept; `month` and `day`
are non-negative throughout the range where the function is applied. -/
def toGregN (N : ℕ) : ℤ × ℤ × ℤ :=
  (fun L : ℕ =>
    (fun n : ℕ =>
      (fun L2 : ℕ =>
        (fun i : ℕ =>
          (fun L3 : ℕ =>
            (fun j : ℕ =>
              (fun (day : ℕ) (L4 : ℕ) =>
                (fun (month : ℕ) (year : ℤ) =>
                  (if year < 1 then year - 1 else year, (month : ℤ), (day : ℤ)))
                (j + 2 - 12 * L4) (100 * ((n : ℤ) - 49) + i + L4))
              (L3 - 2447 * j / 80) (j / 11))
            (80 * L3 / 2447))
          (L2 - 1461 * i / 4 + 31))
        (4000 * (L2 + 1) / 1461001))
      (L - (146097 * n + 3) / 4))
    (4 * L / 146097))
  (N + 68569)

lemma toGregN_month1 (y a b g h d : ℕ) (hb : b < 4) (hh : h < 4) (hg : g ≤ 24)
    (hy : y = 400 * a + 100 * b + 4 * g + h + 1) (hy1 : 1 ≤ y)
    (hd : 1 ≤ d) (hd2 : d ≤ 31) :
    toGregN (146097 * a + 36524 * b + 1461 * g + 365 * h + 1721425 + d)
      = ((y : ℤ), 1, (d : ℤ)) := by
  unfold toGregN
  beta_reduce
  have hn : 4 * (146097 * a + 36524 * b + 1461 * g + 365 * h + 1721425 + d + 68569) / 146097
      = 4 * a + b + 49 := by omega
  rw [hn]
  have hv : (146097 * (4 * a + b + 49) + 3) / 4 = 146097 * a + 36524 * b + 1789689 := by
    omega
  rw [hv]
  have hL2 : 146097 * a + 36524 * b + 1461 * g + 365 * h + 1721425 + d + 68569
      - (146097 * a + 36524 * b + 1789689) = 1461 * g + 365 * h + 305 + d := by omega
  rw [hL2]
  have hi : 4000 * (1461 * g + 365 * h + 305 + d + 1) / 1461001 = 4 * g + h := by omega
  rw [hi]
  have hL3 : 1461 * g + 365 * h + 305 + d - 1461 * (4 * g + h) / 4 + 31 = 336 + d := by omega
  rw [hL3]
  have hj : 80 * (336 + d) / 2447 = 11 := by omega
  rw [hj]
  rw [if_neg (by push_cast; omega)]
  simp only [Prod.mk.injEq]
  refine ⟨by push_cast; omega, by norm_num, by push_cast; omega⟩

lemma toGregN_month2 (y a b g h d : ℕ) (hb : b < 4) (hh : h < 4) (hg : g ≤ 24)
    (hy : y = 400 * a + 100 * b + 4 * g + h + 1) (hy1 : 1 ≤ y)
    (hd : 1 ≤ d) (hd2 : d ≤ 28 ∨ (d = 29 ∧ h = 3 ∧ (g = 24 → b = 3))) :
    toGregN (146097 * a + 36524 * b + 1461 * g + 365 * h + 1721456 + d)
      = ((y : ℤ), 2, (d : ℤ)) := by
  unfold toGregN
  beta_reduce
  have hn : 4 * (146097 * a + 36524 * b + 1461 * g + 365 * h + 1721456 + d + 68569) / 146097
      = 4 * a + b + 49 := by omega
  rw [hn]
  have hv : (146097 * (4 * a + b + 49) + 3) / 4 = 146097 * a + 36524 * b + 1789689 := by
    omega
  rw [hv]
  have hL2 : 146097 * a + 36524 * b + 1461 * g + 365 * h + 1721456 + d + 68569
      - (146097 * a + 36524 * b + 1789689) = 1461 * g + 365 * h + 336 + d := by omega
  rw [hL2]
  have hi : 4000 * (1461 * g + 365 * h + 336 + d + 1) / 1461001 = 4 * g + h := by
    rcases hd2 with hc | ⟨hc1, hc2, hc3⟩
    · omega
    · subst hc1
      subst hc2
      by_cases hg24 : g = 24
      · have hb3 := hc3 hg24
        subst hg24
        subst hb3
        omega
      · omega
  rw [hi]
  have hL3 : 1461 * g + 365 * h + 336 + d - 1461 * (4 * g + h) / 4 + 31 = 367 + d := by omega
  rw [hL3]
  have hj : 80 * (367 + d) / 2447 = 12 := by omega
  rw [hj]
  rw [if_neg (by push_cast; omega)]
  simp only [Prod.mk.injEq]
  refine ⟨by push_cast; omega, by norm_num, by push_cast; omega⟩

lemma toGregN_month3 (y a b g h d : ℕ) (hb : b < 4) (hh : h < 4) (hg : g ≤ 24)
    (hy : y = 400 * a + 100 * b + 4 * g + h) (hy1 : 1 ≤ y)
    (hd : 1 ≤ d) (hd2 : d ≤ 31) :
    toGregN (146097 * a + 36524 * b + 1461 * g + 365 * h + 1721119 + d)
      = ((y : ℤ), 3, (d : ℤ)) := by
  unfold toGregN
  beta_reduce
  have hn : 4 * (146097 * a + 36524 * b + 1461 * g + 365 * h + 1721119 + d + 68569) / 146097
      = 4 * a + b + 49 := by omega
  rw [hn]
  have hv : (146097 * (4 * a + b + 49) + 3) / 4 = 146097 * a + 36524 * b + 1789689 := by
    omega
  rw [hv]
  have hL2 : 146097 * a + 36524 * b + 1461 * g + 365 * h + 1721119 + d + 68569
      - (146097 * a + 36524 * b + 1789689) = 1461 * g + 365 * h + d - 1 := by omega
  rw [hL2]
  have hi : 4000 * (1461 * g + 365 * h + d - 1 + 1) / 1461001 = 4 * g + h := by omega
  rw [hi]
  have hL3 : 1461 * g + 365 * h + d - 1 - 1461 * (4 * g + h) / 4 + 31 = 30 + d := by omega
  rw [hL3]
  have hj : 80 * (30 + d) / 2447 = 1 := by omega
  rw [hj]
  rw [if_neg (by push_cast; omega)]
  simp only [Prod.mk.injEq]
  refine ⟨by push_cast; omega, by norm_num, by push_cast; omega⟩

lemma toGregN_month4 (y a b g h d : ℕ) (hb : b < 4) (hh : h < 4) (hg : g ≤ 24)
    (hy : y = 400 * a + 100 * b + 4 * g + h) (hy1 : 1 ≤ y)
    (hd : 1 ≤ d) (hd2 : d ≤ 30) :
    toGregN (146097 * a + 36524 * b + 1461 * g + 365 * h + 1721150 + d)
      = ((y : ℤ), 4, (d : ℤ)) := by
  unfold toGregN
  beta_reduce
  have hn : 4 * (146097 * a + 36524 * b + 1461 * g + 365 * h + 1721150 + d + 68569) / 146097
      = 4 * a + b + 49 := by omega
  rw [hn]
  have hv : (146097 * (4 * a + b + 49) + 3) / 4 = 146097 * a + 36524 * b + 1789689 := by
    omega
  rw [hv]
  have hL2 : 146097 * a + 36524 * b + 1461 * g + 365 * h + 1721150 + d + 68569
      - (146097 * a + 36524 * b + 1789689) = 1461 * g + 365 * h + 30 + d := by omega
  rw [hL2]
  have hi : 4000 * (1461 * g + 365 * h + 30 + d + 1) / 1461001 = 4 * g + h := by omega
  rw [hi]
  have hL3 : 1461 * g + 365 * h + 30 + d - 1461 * (4 * g + h) / 4 + 31 = 61 + d := by omega
  rw [hL3]
  have hj : 80 * (61 + d) / 2447 = 2 := by omega
  rw [hj]
  rw [if_neg (by push_cast; omega)]
  simp only [Prod.mk.injEq]
  refine ⟨by push_cast; omega, by norm_num, by push_cast; omega⟩

lemma toGregN_month5 (y a b g h d : ℕ) (hb : b < 4) (hh : h < 4) (hg : g ≤ 24)
    (hy : y = 400 * a + 100 * b + 4 * g + h) (hy1 : 1 ≤ y)
    (hd : 1 ≤ d) (hd2 : d ≤ 31) :
    toGregN (146097 * a + 36524 * b + 1461 * g + 365 * h + 1721180 + d)
      = ((y : ℤ), 5, (d : ℤ)) := by
  unfold toGregN
  beta_reduce
  have hn : 4 * (146097 * a + 36524 * b + 1461 * g + 365 * h + 1721180 + d + 68569) / 146097
      = 4 * a + b + 49 := by omega
  rw [hn]
  have hv : (146097 * (4 * a + b + 49) + 3) / 4 = 146097 * a + 36524 * b + 1789689 := by
    omega
  rw [hv]
  have hL2 : 146097 * a + 36524 * b + 1461 * g + 365 * h + 1721180 + d + 68569
      - (146097 * a + 36524 * b + 1789689) = 1461 * g + 365 * h + 60 + d := by omega
  rw [hL2]
  have hi : 4000 * (1461 * g + 365 * h + 60 + d + 1) / 1461001 = 4 * g + h := by omega
  rw [hi]
  have hL3 : 1461 * g + 365 * h + 60 + d - 1461 * (4 * g + h) / 4 + 31 = 91 + d := by omega
  rw [hL3]
  have hj : 80 * (91 + d) / 2447 = 3 := by omega
  rw [hj]
  rw [if_neg (by push_cast; omega)]
  simp only [Prod.mk.injEq]
  refine ⟨by push_cast; omega, by norm_num, by push_cast; omega⟩

lemma toGregN_month6 (y a b g h d : ℕ) (hb : b < 4) (hh : h < 4) (hg : g ≤ 24)
    (hy : y = 400 * a + 100 * b + 4 * g + h) (hy1 : 1 ≤ y)
    (hd : 1 ≤ d) (hd2 : d ≤ 30) :
    toGregN (146097 * a + 36524 * b + 1461 * g + 365 * h + 1721211 + d)
      = ((y : ℤ), 6, (d : ℤ)) := by
  unfold toGregN
  beta_reduce
  have hn : 4 * (146097 * a + 36524 * b + 1461 * g + 365 * h + 1721211 + d + 68569) / 146097
      = 4 * a + b + 49 := by omega
  rw [hn]
  have hv : (146097 * (4 * a + b + 49) + 3) / 4 = 146097 * a + 36524 * b + 1789689 := by
    omega
  rw [hv]
  have hL2 : 146097 * a + 36524 * b + 1461 * g + 365 * h + 1721211 + d + 68569
      - (146097 * a + 36524 * b + 1789689) = 1461 * g + 365 * h + 91 + d := by omega
  rw [hL2]
  have hi : 4000 * (1461 * g + 365 * h + 91 + d + 1) / 1461001 = 4 * g + h := by omega
  rw [hi]
  have hL3 : 1461 * g + 365 * h + 91 + d - 1461 * (4 * g + h) / 4 + 31 = 122 + d := by omega
  rw [hL3]
  have hj : 80 * (122 + d) / 2447 = 4 := by omega
  rw [hj]
  rw [if_neg (by push_cast; omega)]
  simp only [Prod.mk.injEq]
  refine ⟨by push_cast; omega, by norm_num, by push_cast; omega⟩

lemma toGregN_month7 (y a b g h d : ℕ) (hb : b < 4) (hh : h < 4) (hg : g ≤ 24)
    (hy : y = 400 * a + 100 * b + 4 * g + h) (hy1 : 1 ≤ y)
    (hd : 1 ≤ d) (hd2 : d ≤ 31) :
    toGregN (146097 * a + 36524 * b + 1461 * g + 365 * h + 1721241 + d)
      = ((y : ℤ), 7, (d : ℤ)) := by
  unfold toGregN
  beta_reduce
  have hn : 4 * (146097 * a + 36524 * b + 1461 * g + 365 * h + 1721241 + d + 68569) / 146097
      = 4 * a + b + 49 := by omega
  rw [hn]
  have hv : (146097 * (4 * a + b + 49) + 3) / 4 = 146097 * a + 36524 * b + 1789689 := by
    omega
  rw [hv]
  have hL2 : 146097 * a + 36524 * b + 1461 * g + 365 * h + 1721241 + d + 68569
      - (146097 * a + 36524 * b + 1789689) = 1461 * g + 365 * h + 121 + d := by omega
  rw [hL2]
  have hi : 4000 * (1461 * g + 365 * h + 121 + d + 1) / 1461001 = 4 * g + h := by omega
  rw [hi]
  have hL3 : 1461 * g + 365 * h + 121 + d - 1461 * (4 * g + h) / 4 + 31 = 152 + d := by omega
  rw [hL3]
  have hj : 80 * (152 + d) / 2447 = 5 := by omega
  rw [hj]
  rw [if_neg (by push_cast; omega)]
  simp only [Prod.mk.injEq]
  refine ⟨by push_cast; omega, by norm_num, by push_cast; omega⟩

lemma toGregN_month8 (y a b g h d : ℕ) (hb : b < 4) (hh : h < 4) (hg : g ≤ 24)
    (hy : y = 400 * a + 100 * b + 4 * g + h) (hy1 : 1 ≤ y)
    (hd : 1 ≤ d) (hd2 : d ≤ 31) :
    toGregN (146097 * a + 36524 * b + 1461 * g + 365 * h + 1721272 + d)
      = ((y : ℤ), 8, (d : ℤ)) := by
  unfold toGregN
  beta_reduce
  have hn : 4 * (146097 * a + 36524 * b + 1461 * g + 365 * h + 1721272 + d + 68569) / 146097
      = 4 * a + b + 49 := by omega
  rw [hn]
  have hv : (146097 * (4 * a + b + 49) + 3) / 4 = 146097 * a + 36524 * b + 1789689 := by
    omega
  rw [hv]
  have hL2 : 146097 * a + 36524 * b + 1461 * g + 365 * h + 1721272 + d + 68569
      - (146097 * a + 36524 * b + 1789689) = 1461 * g + 365 * h + 152 + d := by omega
  rw [hL2]
  have hi : 4000 * (1461 * g + 365 * h + 152 + d + 1) / 1461001 = 4 * g + h := by omega
  rw [hi]
  have hL3 : 1461 * g + 365 * h + 152 + d - 1461 * (4 * g + h) / 4 + 31 = 183 + d := by omega
  rw [hL3]
  have hj : 80 * (183 + d) / 2447 = 6 := by omega
  rw [hj]
  rw [if_neg (by push_cast; omega)]
  simp only [Prod.mk.injEq]
  refine ⟨by push_cast; omega, by norm_num, by push_cast; omega⟩

lemma toGregN_month9 (y a b g h d : ℕ) (hb : b < 4) (hh : h < 4) (hg : g ≤ 24)
    (hy : y = 400 * a + 100 * b + 4 * g + h) (hy1 : 1 ≤ y)
    (hd : 1 ≤ d) (hd2 : d ≤ 30) :
    toGregN (146097 * a + 36524 * b + 1461 * g + 365 * h + 1721303 + d)
      = ((y : ℤ), 9, (d : ℤ)) := by
  unfold toGregN
  beta_reduce
  have hn : 4 * (146097 * a + 36524 * b + 1461 * g + 365 * h + 1721303 + d + 68569) / 146097
      = 4 * a + b + 49 := by omega
  rw [hn]
  have hv : (146097 * (4 * a + b + 49) + 3) / 4 = 146097 * a + 36524 * b + 1789689 := by
    omega
  rw [hv]
  have hL2 : 146097 * a + 36524 * b + 1461 * g + 365 * h + 1721303 + d + 68569
      - (146097 * a + 36524 * b + 1789689) = 1461 * g + 365 * h + 183 + d := by omega
  rw [hL2]
  have hi : 4000 * (1461 * g + 365 * h + 183 + d + 1) / 1461001 = 4 * g + h := by omega
  rw [hi]
  have hL3 : 1461 * g + 365 * h + 183 + d - 1461 * (4 * g + h) / 4 + 31 = 214 + d := by omega
  rw [hL3]
  have hj : 80 * (214 + d) / 2447 = 7 := by omega
  rw [hj]
  rw [if_neg (by push_cast; omega)]
  simp only [Prod.mk.injEq]
  refine ⟨by push_cast; omega, by norm_num, by push_cast; omega⟩

lemma toGregN_month10 (y a b g h d : ℕ) (hb : b < 4) (hh : h < 4) (hg : g ≤ 24)
    (hy : y = 400 * a + 100 * b + 4 * g + h) (hy1 : 1 ≤ y)
    (hd : 1 ≤ d) (hd2 : d ≤ 31) :
    toGregN (146097 * a + 36524 * b + 1461 * g + 365 * h + 1721333 + d)
      = ((y : ℤ), 10, (d : ℤ)) := by
  unfold toGregN
  beta_reduce
  have hn : 4 * (146097 * a + 36524 * b + 1461 * g + 365 * h + 1721333 + d + 68569) / 146097
      = 4 * a + b + 49 := by omega
  rw [hn]
  have hv : (146097 * (4 * a + b + 49) + 3) / 4 = 146097 * a + 36524 * b + 1789689 := by
    omega
  rw [hv]
  have hL2 : 146097 * a + 36524 * b + 1461 * g + 365 * h + 1721333 + d + 68569
      - (146097 * a + 36524 * b + 1789689) = 1461 * g + 365 * h + 213 + d := by omega
  rw [hL2]
  have hi : 4000 * (1461 * g + 365 * h + 213 + d + 1) / 1461001 = 4 * g + h := by omega
  rw [hi]
  have hL3 : 1461 * g + 365 * h + 213 + d - 1461 * (4 * g + h) / 4 + 31 = 244 + d := by omega
  rw [hL3]
  have hj : 80 * (244 + d) / 2447 = 8 := by omega
  rw [hj]
  rw [if_neg (by push_cast; omega)]
  simp only [Prod.mk.injEq]
  refine ⟨by push_cast; omega, by norm_num, by push_cast; omega⟩

lemma toGregN_month11 (y a b g h d : ℕ) (hb : b < 4) (hh : h < 4) (hg : g ≤ 24)
    (hy : y = 400 * a + 100 * b + 4 * g + h) (hy1 : 1 ≤ y)
    (hd : 1 ≤ d) (hd2 : d ≤ 30) :
    toGregN (146097 * a + 36524 * b + 1461 * g + 365 * h + 1721364 + d)
      = ((y : ℤ), 11, (d : ℤ)) := by
  unfold toGregN
  beta_reduce
  have hn : 4 * (146097 * a + 36524 * b + 1461 * g + 365 * h + 1721364 + d + 68569) / 146097
      = 4 * a + b + 49 := by omega
  rw [hn]
  have hv : (146097 * (4 * a + b + 49) + 3) / 4 = 146097 * a + 36524 * b + 1789689 := by
    omega
  rw [hv]
  have hL2 : 146097 * a + 36524 * b + 1461 * g + 365 * h + 1721364 + d + 68569
      - (146097 * a + 36524 * b + 1789689) = 1461 * g + 365 * h + 244 + d := by omega
  rw [hL2]
  have hi : 4000 * (1461 * g + 365 * h + 244 + d + 1) / 1461001 = 4 * g + h := by omega
  rw [hi]
  have hL3 : 1461 * g + 365 * h + 244 + d - 1461 * (4 * g + h) / 4 + 31 = 275 + d := by omega
  rw [hL3]
  have hj : 80 * (275 + d) / 2447 = 9 := by omega
  rw [hj]
  rw [if_neg (by push_cast; omega)]
  simp only [Prod.mk.injEq]
  refine ⟨by push_cast; omega, by norm_num, by push_cast; omega⟩

lemma toGregN_month12 (y a b g h d : ℕ) (hb : b < 4) (hh : h < 4) (hg : g ≤ 24)
    (hy : y = 400 * a + 100 * b + 4 * g + h) (hy1 : 1 ≤ y)
    (hd : 1 ≤ d) (hd2 : d ≤ 31) :
    toGregN (146097 * a + 36524 * b + 1461 * g + 365 * h + 1721394 + d)
      = ((y : ℤ), 12, (d : ℤ)) := by
  unfold toGregN
  beta_reduce
  have hn : 4 * (146097 * a + 36524 * b + 1461 * g + 365 * h + 1721394 + d + 68569) / 146097
      = 4 * a + b + 49 := by omega
  rw [hn]
  have hv : (146097 * (4 * a + b + 49) + 3) / 4 = 146097 * a + 36524 * b + 1789689 := by
    omega
  rw [hv]
  have hL2 : 146097 * a + 36524 * b + 1461 * g + 365 * h + 1721394 + d + 68569
      - (146097 * a + 36524 * b + 1789689) = 1461 * g + 365 * h + 274 + d := by omega
  rw [hL2]
  have hi : 4000 * (1461 * g + 365 * h + 274 + d + 1) / 1461001 = 4 * g + h := by omega
  rw [hi]
  have hL3 : 1461 * g + 365 * h + 274 + d - 1461 * (4 * g + h) / 4 + 31 = 305 + d := by omega
  rw [hL3]
  have hj : 80 * (305 + d) / 2447 = 10 := by omega
  rw [hj]
  rw [if_neg (by push_cast; omega)]
  simp only [Prod.mk.injEq]
  refine ⟨by push_cast; omega, by norm_num, by push_cast; omega⟩

set_option maxHeartbeats 1600000 in
/-- The Fliegel-Van Flandern inverse recovers every valid Gregorian date
(year ≥ 1) from its Julian Day as computed by `GregorianDate.jd`. -/
theorem toGregN_gregJdN (y m d : ℕ) (hy : 1 ≤ y) (hv : gregValid y m d) :
    toGregN (gregJdN y m d) = ((y : ℤ), (m : ℤ), (d : ℤ)) := by
  obtain ⟨hm1, hm2, hd1, hd2⟩ := hv
  interval_cases m
  · -- month 1
    obtain ⟨a, b, g, h, hb, hh, hg, hs⟩ :
        ∃ a b g h, b < 4 ∧ h < 4 ∧ g ≤ 24 ∧ y - 1 = 400 * a + 100 * b + 4 * g + h :=
      ⟨(y - 1) / 400, (y - 1) % 400 / 100, (y - 1) % 100 / 4, (y - 1) % 4,
        by omega, by omega, by omega, by omega⟩
    have hN : gregJdN y 1 d = 146097 * a + 36524 * b + 1461 * g + 365 * h + 1721425 + d := by
      unfold gregJdN monthTerm
      beta_reduce
      norm_num
      omega
    rw [hN]
    exact toGregN_month1 y a b g h d hb hh hg (by omega) hy hd1 (by
      unfold gregMonthLength at hd2
      norm_num at hd2
      omega)
  · -- month 2
    obtain ⟨a, b, g, h, hb, hh, hg, hs⟩ :
        ∃ a b g h, b < 4 ∧ h < 4 ∧ g ≤ 24 ∧ y - 1 = 400 * a + 100 * b + 4 * g + h :=
      ⟨(y - 1) / 400, (y - 1) % 400 / 100, (y - 1) % 100 / 4, (y - 1) % 4,
        by omega, by omega, by omega, by omega⟩
    have hN : gregJdN y 2 d = 146097 * a + 36524 * b + 1461 * g + 365 * h + 1721456 + d := by
      unfold gregJdN monthTerm
      beta_reduce
      norm_num
      omega
    rw [hN]
    exact toGregN_month2 y a b g h d hb hh hg (by omega) hy hd1 (by
      unfold gregMonthLength gregIsLeap at hd2
      norm_num at hd2
      by_cases hLp : y % 4 = 0 ∧ (y % 100 = 0 → y % 400 = 0)
      · rw [if_pos hLp] at hd2
        obtain ⟨hp1, hp2⟩ := hLp
        omega
      · rw [if_neg hLp] at hd2
        push_neg at hLp
        omega)
  · -- month 3
    obtain ⟨a, b, g, h, hb, hh, hg, hs⟩ :
        ∃ a b g h, b < 4 ∧ h < 4 ∧ g ≤ 24 ∧ y = 400 * a + 100 * b + 4 * g + h :=
      ⟨(y) / 400, (y) % 400 / 100, (y) % 100 / 4, (y) % 4,
        by omega, by omega, by omega, by omega⟩
    have hN : gregJdN y 3 d = 146097 * a + 36524 * b + 1461 * g + 365 * h + 1721119 + d := by
      unfold gregJdN monthTerm
      beta_reduce
      norm_num
      omega
    rw [hN]
    exact toGregN_month3 y a b g h d hb hh hg (by omega) hy hd1 (by
      unfold gregMonthLength at hd2
      norm_num at hd2
      omega)
  · -- month 4
    obtain ⟨a, b, g, h, hb, hh, hg, hs⟩ :
        ∃ a b g h, b < 4 ∧ h < 4 ∧ g ≤ 24 ∧ y = 400 * a + 100 * b + 4 * g + h :=
      ⟨(y) / 400, (y) % 400 / 100, (y) % 100 / 4, (y) % 4,
        by omega, by omega, by omega, by omega⟩
    have hN : gregJdN y 4 d = 146097 * a + 36524 * b + 1461 * g + 365 * h + 1721150 + d := by
      unfold gregJdN monthTerm
      beta_reduce
      norm_num
      omega
    rw [hN]
    exact toGregN_month4 y a b g h d hb hh hg (by omega) hy hd1 (by
      unfold gregMonthLength at hd2
      norm_num at hd2
      omega)
  · -- month 5
    obtain ⟨a, b, g, h, hb, hh, hg, hs⟩ :
        ∃ a b g h, b < 4 ∧ h < 4 ∧ g ≤ 24 ∧ y = 400 * a + 100 * b + 4 * g + h :=
      ⟨(y) / 400, (y) % 400 / 100, (y) % 100 / 4, (y) % 4,
        by omega, by omega, by omega, by omega⟩
    have hN : gregJdN y 5 d = 146097 * a + 36524 * b + 1461 * g + 365 * h + 1721180 + d := by
      unfold gregJdN monthTerm
      beta_reduce
      norm_num
      omega
    rw [hN]
    exact toGregN_month5 y a b g h d hb hh hg (by omega) hy hd1 (by
      unfold gregMonthLength at hd2
      norm_num at hd2
      omega)
  · -- month 6
    obtain ⟨a, b, g, h, hb, hh, hg, hs⟩ :
        ∃ a b g h, b < 4 ∧ h < 4 ∧ g ≤ 24 ∧ y = 400 * a + 100 * b + 4 * g + h :=
      ⟨(y) / 400, (y) % 400 / 100, (y) % 100 / 4, (y) % 4,
        by omega, by omega, by omega, by omega⟩
    have hN : gregJdN y 6 d = 146097 * a + 36524 * b + 1461 * g + 365 * h + 1721211 + d := by
      unfold gregJdN monthTerm
      beta_reduce
      norm_num
      omega
    rw [hN]
    exact toGregN_month6 y a b g h d hb hh hg (by omega) hy hd1 (by
      unfold gregMonthLength at hd2
      norm_num at hd2
      omega)
  · -- month 7
    obtain ⟨a, b, g, h, hb, hh, hg, hs⟩ :
        ∃ a b g h, b < 4 ∧ h < 4 ∧ g ≤ 24 ∧ y = 400 * a + 100 * b + 4 * g + h :=
      ⟨(y) / 400, (y) % 400 / 100, (y) % 100 / 4, (y) % 4,
        by omega, by omega, by omega, by omega⟩
    have hN : gregJdN y 7 d = 146097 * a + 36524 * b + 1461 * g + 365 * h + 1721241 + d := by
      unfold gregJdN monthTerm
      beta_reduce
      norm_num
      omega
    rw [hN]
    exact toGregN_month7 y a b g h d hb hh hg (by omega) hy hd1 (by
      unfold gregMonthLength at hd2
      norm_num at hd2
      omega)
  · -- month 8
    obtain ⟨a, b, g, h, hb, hh, hg, hs⟩ :
        ∃ a b g h, b < 4 ∧ h < 4 ∧ g ≤ 24 ∧ y = 400 * a + 100 * b + 4 * g + h :=
      ⟨(y) / 400, (y) % 400 / 100, (y) % 100 / 4, (y) % 4,
        by omega, by omega, by omega, by omega⟩
    have hN : gregJdN y 8 d = 146097 * a + 36524 * b + 1461 * g + 365 * h + 1721272 + d := by
      unfold gregJdN monthTerm
      beta_reduce
      norm_num
      omega
    rw [hN]
    exact toGregN_month8 y a b g h d hb hh hg (by omega) hy hd1 (by
      unfold gregMonthLength at hd2
      norm_num at hd2
      omega)
  · -- month 9
    obtain ⟨a, b, g, h, hb, hh, hg, hs⟩ :
        ∃ a b g h, b < 4 ∧ h < 4 ∧ g ≤ 24 ∧ y = 400 * a + 100 * b + 4 * g + h :=
      ⟨(y) / 400, (y) % 400 / 100, (y) % 100 / 4, (y) % 4,
        by omega, by omega, by omega, by omega⟩
    have hN : gregJdN y 9 d = 146097 * a + 36524 * b + 1461 * g + 365 * h + 1721303 + d := by
      unfold gregJdN monthTerm
      beta_reduce
      norm_num
      omega
    rw [hN]
    exact toGregN_month9 y a b g h d hb hh hg (by omega) hy hd1 (by
      unfold gregMonthLength at hd2
      norm_num at hd2
      omega)
  · -- month 10
    obtain ⟨a, b, g, h, hb, hh, hg, hs⟩ :
        ∃ a b g h, b < 4 ∧ h < 4 ∧ g ≤ 24 ∧ y = 400 * a + 100 * b + 4 * g + h :=
      ⟨(y) / 400, (y) % 400 / 100, (y) % 100 / 4, (y) % 4,
        by omega, by omega, by omega, by omega⟩
    have hN : gregJdN y 10 d = 146097 * a + 36524 * b + 1461 * g + 365 * h + 1721333 + d := by
      unfold gregJdN monthTerm
      beta_reduce
      norm_num
      omega
    rw [hN]
    exact toGregN_month10 y a b g h d hb hh hg (by omega) hy hd1 (by
      unfold gregMonthLength at hd2
      norm_num at hd2
      omega)
  · -- month 11
    obtain ⟨a, b, g, h, hb, hh, hg, hs⟩ :
        ∃ a b g h, b < 4 ∧ h < 4 ∧ g ≤ 24 ∧ y = 400 * a + 100 * b + 4 * g + h :=
      ⟨(y) / 400, (y) % 400 / 100, (y) % 100 / 4, (y) % 4,
        by omega, by omega, by omega, by omega⟩
    have hN : gregJdN y 11 d = 146097 * a + 36524 * b + 1461 * g + 365 * h + 1721364 + d := by
      unfold gregJdN monthTerm
      beta_reduce
      norm_num
      omega
    rw [hN]
    exact toGregN_month11 y a b g h d hb hh hg (by omega) hy hd1 (by
      unfold gregMonthLength at hd2
      norm_num at hd2
      omega)
  · -- month 12
    obtain ⟨a, b, g, h, hb, hh, hg, hs⟩ :
        ∃ a b g h, b < 4 ∧ h < 4 ∧ g ≤ 24 ∧ y = 400 * a + 100 * b + 4 * g + h :=
      ⟨(y) / 400, (y) % 400 / 100, (y) % 100 / 4, (y) % 4,
        by omega, by omega, by omega, by omega⟩
    have hN : gregJdN y 12 d = 146097 * a + 36524 * b + 1461 * g + 365 * h + 1721394 + d := by
      unfold gregJdN monthTerm
      beta_reduce
      norm_num
      omega
    rw [hN]
    exact toGregN_month12 y a b g h d hb hh hg (by omega) hy hd1 (by
      unfold gregMonthLength at hd2
      norm_num at hd2
      omega)

/-! ## Weekday and Shabbos, from `BaseDate` in `src/pyluach/dates.py` -/

/-- `BaseDate.weekday`: `int(self.jd+.5+1) % 7 + 1`, over the whole (possibly
negative) Julian-Day line; in our representation `int(jd+.5) = N`. -/
def weekdayZ (N : ℤ) : ℤ := (N + 1) % 7 + 1

/-- `BaseDate.shabbos`: `self + (7 - self.weekday())` at the jd level. -/
def shabbosZ (N : ℤ) : ℤ := N + (7 - weekdayZ N)

/-- the same two functions for the non-negative `N` used by concrete dates -/
def weekdayN (N : ℕ) : ℕ := (N + 1) % 7 + 1

def shabbosN (N : ℕ) : ℕ := N + (7 - weekdayN N)

lemma shabbosN_cast (N : ℕ) : (shabbosN N : ℤ) = shabbosZ (N : ℤ) := by
  unfold shabbosN shabbosZ weekdayN weekdayZ
  omega

/-! ## `HebrewDate.__init__` validation -/

/-- Python exception kinds raised by the library. -/
inductive PyError
  | valueError (msg : String)
  | typeError (msg : String)
deriving DecidableEq

/-- the validation sequence of `HebrewDate.__init__` (messages abbreviated
from the source's f-strings). -/
def hebrewDateInit (year month day : ℕ) : Except PyError (ℕ × ℕ × ℕ) :=
  if year < 1 then .error (.valueError "Date supplied is before creation.")
  else if month < 1 ∨ month > 13 then .error (.valueError "is an invalid month.")
  else if (¬ isLeap year) ∧ month = 13 then .error (.valueError "is not a leap year")
  else if day < 1 ∨ day > monthLength year month then
    .error (.valueError "Given month has days.")
  else .ok (year, month, day)

lemma mem_monthsInYear (y m : ℕ) :
    m ∈ monthsInYear y ↔ (1 ≤ m ∧ m ≤ 13 ∧ (m = 13 → isLeap y = true)) := by
  unfold monthsInYear
  cases hL : isLeap y <;> simp [hL] <;> omega

lemma hebrewDateInit_ok (y m d : ℕ) (hy : 1 ≤ y) (hm : m ∈ monthsInYear y)
    (hd1 : 1 ≤ d) (hd2 : d ≤ monthLength y m) :
    hebrewDateInit y m d = .ok (y, m, d) := by
  obtain ⟨h1, h2, h3⟩ := (mem_monthsInYear y m).mp hm
  unfold hebrewDateInit
  rw [if_neg (by omega), if_neg (by omega), if_neg ?_, if_neg (by omega)]
  intro ⟨ha, hb⟩
  exact ha (h3 hb)

/-! ## Holiday engine, from `src/pyluach/utils.py` -/

def FAST_DAYS : List String :=
  ["Tzom Gedalia", "10 of Teves", "Taanis Esther", "17 of Tamuz", "9 of Av"]

def FAST_DAYS_HEBREW : List String :=
  ["צום גדליה", "י׳ בטבת", "תענית אסתר", "י״ז בתמוז", "ט׳ באב"]

def FESTIVALS : List String :=
  ["Rosh Hashana", "Yom Kippur", "Succos", "Shmini Atzeres", "Simchas Torah",
   "Chanuka", "Tu B\x27shvat", "Purim Katan", "Purim", "Shushan Purim",
   "Pesach", "Pesach Sheni", "Lag Ba\x27omer", "Shavuos", "Tu B\x27av"]

def FESTIVALS_HEBREW : List String :=
  ["ראש השנה", "יום כיפור", "סוכות", "שמיני עצרת", "שמחת תורה", "חנוכה",
   "ט״ו בשבט", "פורים קטן", "פורים", "שושן פורים", "פסח", "פסח שני",
   "ל״ג בעומר", "שבועות", "ט״ו באב"]

/-- `_fast_day(date)`, on a Hebrew date with weekday `wd` (the source
computes `weekday = date.weekday()`); returns the index into `FAST_DAYS`. -/
def fastDay (y m d wd : ℕ) : Option ℕ :=
  (fun adar =>
    if m = 7 then
      (if (wd = 1 ∧ d = 4) ∨ (wd ≠ 7 ∧ d = 3) then some 0 else none)
    else if m = 10 ∧ d = 10 then some 1
    else if m = adar then
      (if (wd = 5 ∧ d = 11) ∨ (wd ≠ 7 ∧ d = 13) then some 2 else none)
    else if m = 4 then
      (if (wd = 1 ∧ d = 18) ∨ (wd ≠ 7 ∧ d = 17) then some 3 else none)
    else if m = 5 then
      (if (wd = 1 ∧ d = 10) ∨ (wd ≠ 7 ∧ d = 9) then some 4 else none)
    else none)
  (if isLeap y then 13 else 12)

/-- `_festival(date, israel, include_working_days)`; returns the index into
`FESTIVALS`.  The Python `elif` chain and `range` bounds are reproduced
literally (`range(a, b)` is `a ≤ d < b`). -/
def festival (y m d : ℕ) (israel includeWorking : Bool) : Option ℕ :=
  if m = 7 then
    (if d = 1 ∨ d = 2 then some 0
     else if d = 10 then some 1
     else if includeWorking = false ∧ ((17 ≤ d ∧ d < 22) ∨ (israel = true ∧ d = 16)) then none
     else if 15 ≤ d ∧ d < 22 then some 2
     else if d = 22 then some 3
     else if d = 23 ∧ israel = false then some 4
     else none)
  else if (m = 9 ∨ m = 10) ∧ includeWorking = true then
    (fun kislevLength =>
      if (m = 9 ∧ 25 ≤ d ∧ d < kislevLength + 1)
          ∨ (m = 10 ∧ 1 ≤ d ∧ d < 8 - (kislevLength - 25)) then some 5
      else none)
    (monthLength y 9)
  else if m = 11 ∧ d = 15 ∧ includeWorking = true then some 6
  else if m = 12 ∧ includeWorking = true then
    (if d = 14 then (if isLeap y then some 7 else some 8)
     else if d = 15 ∧ ¬ isLeap y then some 9
     else none)
  else if m = 13 ∧ includeWorking = true then
    (if d = 14 then some 8
     else if d = 15 then some 9
     else none)
  else if m = 1 then
    (if includeWorking = false ∧ ((17 ≤ d ∧ d < 21) ∨ (israel = true ∧ d = 16)) then none
     else if 15 ≤ d ∧ d < (if israel = true then 22 else 23) then some 10
     else none)
  else if m = 2 ∧ d = 14 ∧ includeWorking = true then some 11
  else if m = 2 ∧ d = 18 ∧ includeWorking = true then some 12
  else if m = 3 ∧ (d = 6 ∨ (israel = false ∧ d = 7)) then some 13
  else if m = 5 ∧ d = 15 ∧ includeWorking = true then some 14
  else none

/-- `_fast_day_string`. -/
def fastDayString (y m d wd : ℕ) (hebrew : Bool) : Option String :=
  (fastDay y m d wd).map
    (fun i => (if hebrew then FAST_DAYS_HEBREW else FAST_DAYS).getD i "")

/-- `_festival_string`. -/
def festivalString (y m d : ℕ) (israel hebrew includeWorking : Bool) : Option String :=
  (festival y m d israel includeWorking).map
    (fun i => (if hebrew then FESTIVALS_HEBREW else FESTIVALS).getD i "")

/-- `_holiday(date, israel, hebrew)`: festival first (with
`include_working_days` defaulting to `True`), else fast day. -/
def holiday (y m d wd : ℕ) (israel hebrew : Bool) : Option String :=
  match festivalString y m d israel hebrew true with
  | some f => some f
  | none => fastDayString y m d wd hebrew

lemma monthLength_nine (y : ℕ) : monthLength y 9 = 29 ∨ monthLength y 9 = 30 := by
  unfold monthLength
  norm_num
  exact em _

set_option maxHeartbeats 1600000 in
/-- No valid Hebrew date is simultaneously a fast day and a festival. -/
lemma fast_festival_disjoint (y m d wd : ℕ) (hm : m ≤ 13) (israel : Bool) (i : ℕ)
    (hf : fastDay y m d wd = some i) : festival y m d israel true = none := by
  have h9 := monthLength_nine y
  unfold fastDay at hf
  unfold festival
  cases hL : isLeap y <;> rw [hL] at hf <;> cases israel <;>
    interval_cases m <;> norm_num at hf ⊢ <;>
    first
      | rfl
      | exact Option.noConfusion hf
      | (intros; omega)
      | (split_ifs <;> first | rfl | omega)

/-! ## Parshios, from `src/pyluach/parshios.py` -/

/-- `_parshaless(date, israel)` on a Hebrew date with month `m`, day `d`. -/
def parshaless (m d : Nat) (israel : Bool) : Bool :=
  if israel = true ∧ ((m = 7 ∧ d = 23) ∨ (m = 1 ∧ d = 22) ∨ (m = 3 ∧ d = 7)) then false
  else if m = 7 ∧ (d = 1 ∨ d = 2 ∨ d = 10 ∨ (15 ≤ d ∧ d < 24)) then true
  else if m = 1 ∧ (15 ≤ d ∧ d < 23) then true
  else if m = 3 ∧ (d = 6 ∨ d = 7) then true
  else false

/-- `abs(self.jd - other.jd)`, the date-minus-date case of
`BaseDate.__sub__`. -/
def pydiff (a b : Nat) : Nat := max a b - min a b

/-- The double-parsha disjunction in `_gentable` for the parsha number `p`
drawn at the Shabbos with day number `shabbos`. -/
def doubleParsha (year : Nat) (israel leap : Bool) (pesachday shabbos p : Nat) : Prop :=
  (p = 21 ∧ pydiff (hebJdN year 1 14) shabbos / 7 < 3)
  ∨ ((p = 26 ∨ p = 28) ∧ leap = false)
  ∨ (p = 31 ∧ leap = false ∧ (israel = false ∨ pesachday ≠ 7))
  ∨ (p = 38 ∧ israel = false ∧ pesachday = 5)
  ∨ (p = 41 ∧ pydiff (hebJdN year 5 9) shabbos / 7 < 2)
  ∨ (p = 50 ∧ 4 < weekdayN (hebJdN (year + 1) 7 1))

instance (year : Nat) (israel leap : Bool) (pesachday shabbos p : Nat) :
    Decidable (doubleParsha year israel leap pesachday shabbos p) := by
  unfold doubleParsha; infer_instance

/-- The `while shabbos.year == year` loop of `_gentable`, with fuel: the loop
body runs at most 55 times (a Hebrew year has at most 385 days, one table row
per week), so the `[]` fallbacks for fuel exhaustion and for an underrun of
the 54-element parsha queue are unreachable for the arguments `gentable`
supplies. -/
def gentableLoop (year : Nat) (israel leap : Bool) (pesachday : Nat) :
    Nat → Nat → List Nat → List (Nat × Option (List Nat))
  | 0, _, _ => []
  | fuel + 1, shabbos, queue =>
    match toHeb shabbos with
    | none => []
    | some (yy, m, d) =>
      if yy = year then
        if parshaless m d israel then
          (shabbos, none) :: gentableLoop year israel leap pesachday fuel (shabbos + 7) queue
        else
          match queue with
          | [] => []
          | p :: rest =>
            if doubleParsha year israel leap pesachday shabbos p then
              match rest with
              | [] => []
              | q :: rest2 =>
                (shabbos, some [p, q]) ::
                  gentableLoop year israel leap pesachday fuel (shabbos + 7) rest2
            else
              (shabbos, some [p]) ::
                gentableLoop year israel leap pesachday fuel (shabbos + 7) rest
      else []

/-- `_gentable(year, israel)` as an association list keyed by the day number
`N` of each Shabbos of the Hebrew year. -/
def gentable (year : Nat) (israel : Bool) : List (Nat × Option (List Nat)) :=
  (fun parshalist leap pesachday roshHashana =>
    (fun shabbos =>
      gentableLoop year israel leap pesachday 60 shabbos
        (if 4 < weekdayN roshHashana then parshalist.tail else parshalist))
    (shabbosN roshHashana))
  ([51, 52] ++ List.range 52) (isLeap year) (weekdayN (hebJdN year 1 15)) (hebJdN year 7 1)

/-- `getparsha(date, israel)` on the date with day number `N`; the outer
`none` is the dictionary `KeyError` case, never hit for a valid date. -/
def getparsha (N : Nat) (israel : Bool) : Option (Option (List Nat)) :=
  (fun shabbos =>
    ((gentable (hebYearFor (shabbos - 347997)) israel).find?
      (fun e => e.1 == shabbos)).map (fun e => e.2))
  (shabbosN N)


/-! ## Date arithmetic operands, from `src/pyluach/dates.py` -/

/-- A Python operand handed to `BaseDate.__add__` or `__sub__`: an `int`, a
`float` (modelled exactly as a rational), a `str`, `None`, or another date
(identified by its day number `N = jd + 0.5`). -/
inductive PyVal where
  | int (n : ℤ)
  | float (q : ℚ)
  | str (s : String)
  | pyNone
  | date (N : ℕ)
deriving DecidableEq

/-- Python `int()` on a rational: truncation toward zero. -/
def pyInt (q : ℚ) : ℤ := q.num / (q.den : ℤ)

/-- `JulianDay.__init__(day)`: the day is snapped to a half-integer
`int(day) ± 0.5`; no numeric input is rejected. -/
def julianDayInit (day : ℚ) : ℚ :=
  if day - pyInt day < 1/2 then (pyInt day : ℚ) - 1/2 else (pyInt day : ℚ) + 1/2

/-- The result of date `+` / date `-`: a date (carried as its snapped julian
day) or a plain number. -/
inductive PyRes where
  | date (jd : ℚ)
  | num (q : ℚ)
deriving DecidableEq

/-- `BaseDate.__add__(self, other)` on a date with julian day `jd`:
`JulianDay(self.jd + other)` for a numeric operand (`_to_x` preserves the
day), `TypeError` for every other operand. -/
def dateAdd (jd : ℚ) (other : PyVal) : Except PyError PyRes :=
  match other with
  | .int n => .ok (.date (julianDayInit (jd + n)))
  | .float q => .ok (.date (julianDayInit (jd + q)))
  | _ => .error (.typeError "You can only add a number to a date.")

/-- `BaseDate.__sub__(self, other)`: a numeric operand gives
`JulianDay(self.jd - other)`, another date gives `abs(self.jd - other.jd)`,
anything else a `TypeError` (message concatenated without a space, as in the
source). -/
def dateSub (jd : ℚ) (other : PyVal) : Except PyError PyRes :=
  match other with
  | .int n => .ok (.date (julianDayInit (jd - n)))
  | .float q => .ok (.date (julianDayInit (jd - q)))
  | .date M => .ok (.num |jd - ((M : ℚ) - 1/2)|)
  | _ => .error (.typeError
      "You can only subtract a number or another datethat has a \x22jd\x22 attribute from a date")

/-! ## Month arithmetic, from `src/pyluach/hebrewcal.py` -/

/-- `Month.__add__(self, other)` for a non-negative integer `other = n`,
returning the `(year, month)` pair of the resulting `Month`.  `yearmonths`
is `list(Year(year))`, i.e. `monthsInYear`; `leftover_months` counts the
months of the year after `month`.  The guarded branch keeps `index + n`
inside the list, so `getD`'s dummy `0` is never produced for a valid month. -/
def monthAdd (year month n : ℕ) : ℕ × ℕ :=
  if h : n ≤ (monthsInYear year).length - (monthsInYear year).indexOf month - 1 then
    (year, (monthsInYear year).getD ((monthsInYear year).indexOf month + n) 0)
  else
    monthAdd (year + 1) 7
      (n - ((monthsInYear year).length - (monthsInYear year).indexOf month - 1 + 1))
termination_by n
decreasing_by omega

/-- `Month.__sub__(self, other)` for a non-negative integer `other = n`
(the recursive call restarts from the last month, Elul = 6, of the previous
year). -/
def monthSub (year month n : ℕ) : ℕ × ℕ :=
  if h : n ≤ (monthsInYear year).indexOf month then
    (year, (monthsInYear year).getD ((monthsInYear year).indexOf month - n) 0)
  else
    monthSub (year - 1) 6 (n - ((monthsInYear year).indexOf month + 1))
termination_by n
decreasing_by omega

lemma monthsInYear_length (y : ℕ) :
    (monthsInYear y).length = if isLeap y then 13 else 12 := by
  unfold monthsInYear; split <;> rfl

lemma elapsedMonths_succ_len (y : ℕ) (hy : 1 ≤ y) :
    elapsedMonths (y + 1) = elapsedMonths y + (monthsInYear y).length := by
  rw [elapsedMonths_succ y hy, monthsInYear_length]

lemma elapsedMonths_mono (a b : ℕ) (h : a ≤ b) :
    elapsedMonths a ≤ elapsedMonths b := by
  unfold elapsedMonths
  exact Nat.div_le_div_right (by omega)

lemma indexOf_lt (y m : ℕ) (hm : m ∈ monthsInYear y) :
    (monthsInYear y).indexOf m < (monthsInYear y).length :=
  List.indexOf_lt_length.mpr hm

lemma indexOf_seven (y : ℕ) : (monthsInYear y).indexOf 7 = 0 := by
  unfold monthsInYear; split <;> rfl

lemma indexOf_six (y : ℕ) :
    (monthsInYear y).indexOf 6 = (monthsInYear y).length - 1 := by
  unfold monthsInYear; split <;> rfl

lemma monthsInYear_length_bounds (y : ℕ) :
    12 ≤ (monthsInYear y).length ∧ (monthsInYear y).length ≤ 13 := by
  rw [monthsInYear_length]; split <;> omega

lemma getD_mem_monthsInYear (y k : ℕ) (hk : k < (monthsInYear y).length) :
    (monthsInYear y).getD k 0 ∈ monthsInYear y := by
  cases hL : isLeap y <;> simp [monthsInYear, hL] at hk ⊢ <;>
    interval_cases k <;> first | rfl | decide | simp

lemma indexOf_getD (y k : ℕ) (hk : k < (monthsInYear y).length) :
    (monthsInYear y).indexOf ((monthsInYear y).getD k 0) = k := by
  cases hL : isLeap y <;> simp [monthsInYear, hL] at hk ⊢ <;>
    interval_cases k <;> first | rfl | decide | simp

lemma mem_seven (y : ℕ) : 7 ∈ monthsInYear y :=
  (mem_monthsInYear y 7).mpr ⟨by omega, by omega, by omega⟩

lemma mem_six (y : ℕ) : 6 ∈ monthsInYear y :=
  (mem_monthsInYear y 6).mpr ⟨by omega, by omega, by omega⟩

lemma getD_indexOf (y m : ℕ) (hm : m ∈ monthsInYear y) :
    (monthsInYear y).getD ((monthsInYear y).indexOf m) 0 = m := by
  cases hL : isLeap y <;> simp [monthsInYear, hL] at hm ⊢ <;>
    rcases hm with rfl | rfl | rfl | rfl | rfl | rfl | rfl | rfl | rfl | rfl | rfl | rfl | rfl <;>
    rfl

lemma monthAdd_spec (n : ℕ) : ∀ y m : ℕ, 1 ≤ y → m ∈ monthsInYear y →
    y ≤ (monthAdd y m n).1
    ∧ (monthAdd y m n).2 ∈ monthsInYear (monthAdd y m n).1
    ∧ elapsedMonths (monthAdd y m n).1
        + (monthsInYear (monthAdd y m n).1).indexOf (monthAdd y m n).2
      = elapsedMonths y + (monthsInYear y).indexOf m + n := by
  induction n using Nat.strong_induction_on with
  | _ n ih =>
    intro y m hy hm
    have hlt := indexOf_lt y m hm
    rw [monthAdd]
    split
    case isTrue h =>
      refine ⟨le_refl y, getD_mem_monthsInYear y _ (by omega), ?_⟩
      dsimp only
      rw [indexOf_getD y _ (by omega)]
      omega
    case isFalse h =>
      have hstep := elapsedMonths_succ_len y hy
      obtain ⟨h1, h2, h3⟩ := ih
        (n - ((monthsInYear y).length - (monthsInYear y).indexOf m - 1 + 1))
        (by omega) (y + 1) 7 (by omega) (mem_seven (y + 1))
      refine ⟨by omega, h2, ?_⟩
      rw [h3, indexOf_seven]
      omega

lemma monthSub_spec (n : ℕ) : ∀ y2 m2 y m : ℕ, 1 ≤ y → y ≤ y2 →
    m ∈ monthsInYear y → m2 ∈ monthsInYear y2 →
    elapsedMonths y2 + (monthsInYear y2).indexOf m2
      = elapsedMonths y + (monthsInYear y).indexOf m + n →
    monthSub y2 m2 n = (y, m) := by
  induction n using Nat.strong_induction_on with
  | _ n ih =>
    intro y2 m2 y m hy hyy hm hm2 hpos
    have hlt := indexOf_lt y m hm
    have hlt2 := indexOf_lt y2 m2 hm2
    have hlen := monthsInYear_length_bounds y
    have hlen2 := monthsInYear_length_bounds y2
    rw [monthSub]
    split
    case isTrue h =>
      have hyeq : y2 = y := by
        by_contra hne
        have h1 : y + 1 ≤ y2 := by omega
        have h2 := elapsedMonths_mono (y + 1) y2 h1
        have h3 := elapsedMonths_succ_len y hy
        omega
      subst hyeq
      have hieq : (monthsInYear y2).indexOf m2
          = (monthsInYear y2).indexOf m + n := by omega
      have hsub : (monthsInYear y2).indexOf m2 - n = (monthsInYear y2).indexOf m := by
        omega
      rw [hsub, getD_indexOf y2 m hm]
    case isFalse h =>
      have hylt : y < y2 := by
        rcases Nat.lt_or_ge y y2 with hc | hc
        · exact hc
        · exfalso
          have : y2 = y := by omega
          subst this
          omega
      have hy2 : 1 ≤ y2 - 1 := by omega
      have hstep : elapsedMonths y2
          = elapsedMonths (y2 - 1) + (monthsInYear (y2 - 1)).length := by
        have h6 := elapsedMonths_succ_len (y2 - 1) hy2
        have h7 : y2 - 1 + 1 = y2 := by omega
        rw [h7] at h6
        exact h6
      have hmono : elapsedMonths (y + 1) ≤ elapsedMonths (y2 - 1 + 1) :=
        elapsedMonths_mono (y + 1) (y2 - 1 + 1) (by omega)
      have hstepy := elapsedMonths_succ_len y hy
      have hstep2 : elapsedMonths (y2 - 1 + 1)
          = elapsedMonths (y2 - 1) + (monthsInYear (y2 - 1)).length := by
        exact elapsedMonths_succ_len (y2 - 1) hy2
      have hlen3 := monthsInYear_length_bounds (y2 - 1)
      apply ih (n - ((monthsInYear y2).indexOf m2 + 1)) (by omega) (y2 - 1) 6 y m hy
        (by omega) hm (mem_six (y2 - 1))
      rw [indexOf_six]
      omega

/-! ## Claim theorems (first group) -/

/-- C2: for every Hebrew year (year ≥ 1), the Rosh Hashana day number
computed by `_elapsed_days` satisfies `_elapsed_days(year) mod 7 ∉ {0, 3, 5}`:
after the four postponement rules, Rosh Hashana never falls on Sunday,
Wednesday, or Friday. -/
theorem C2_rosh_hashana_weekday (y : ℕ) (hy : 1 ≤ y) :
    ¬(elapsedDays y % 7 = 0 ∨ elapsedDays y % 7 = 3 ∨ elapsedDays y % 7 = 5) := by
  unfold elapsedDays rule4
  split_ifs <;> omega

theorem C2_rosh_hashana_weekday_witness :
    1 ≤ 5784 ∧ ¬(elapsedDays 5784 % 7 = 0 ∨ elapsedDays 5784 % 7 = 3
      ∨ elapsedDays 5784 % 7 = 5) :=
  ⟨by norm_num, C2_rosh_hashana_weekday 5784 (by norm_num)⟩

/-- C3: for every Hebrew year in [1, 10000], `_days_in_year(year)` is one of
exactly the six values {353, 354, 355, 383, 384, 385}, and `_is_leap(year)`
holds iff `_days_in_year(year) > 380`.  (Both facts in fact hold for every
year ≥ 1; the upper bound from the claim is carried along unused.) -/
theorem C3_year_lengths (y : ℕ) (h1 : 1 ≤ y) (h2 : y ≤ 10000) :
    (daysInYear y = 353 ∨ daysInYear y = 354 ∨ daysInYear y = 355
      ∨ daysInYear y = 383 ∨ daysInYear y = 384 ∨ daysInYear y = 385)
    ∧ (isLeap y = true ↔ 380 < daysInYear y) := by
  obtain ⟨he, hl, hc⟩ := daysInYear_spec y h1
  cases hL : isLeap y
  · have hb := hc hL
    refine ⟨by omega, ⟨fun hcon => absurd hcon (by simp), fun hcon => absurd hcon (by omega)⟩⟩
  · have hb := hl hL
    refine ⟨by omega, ⟨fun _ => by omega, fun _ => rfl⟩⟩

theorem C3_year_lengths_witness :
    (1 ≤ 5784 ∧ 5784 ≤ 10000)
    ∧ ((daysInYear 5784 = 353 ∨ daysInYear 5784 = 354 ∨ daysInYear 5784 = 355
      ∨ daysInYear 5784 = 383 ∨ daysInYear 5784 = 384 ∨ daysInYear 5784 = 385)
    ∧ (isLeap 5784 = true ↔ 380 < daysInYear 5784)) :=
  ⟨⟨by norm_num, by norm_num⟩, C3_year_lengths 5784 (by norm_num) (by norm_num)⟩

lemma monthLength_13 (y : ℕ) : monthLength y 13 = 29 := by
  unfold monthLength
  norm_num

/-- C5: for every Hebrew year with `_is_leap(year)` false, constructing
`HebrewDate(year, 13, 1)` fails with a `ValueError`; for every leap year the
construction of `HebrewDate(year, 13, d)` succeeds for every valid day
`1 ≤ d ≤ 29` (month 13 has 29 days). -/
theorem C5_leap_month (y : ℕ) (hy : 1 ≤ y) :
    (isLeap y = false → hebrewDateInit y 13 1 = .error (.valueError "is not a leap year"))
    ∧ (isLeap y = true → ∀ d, 1 ≤ d → d ≤ 29 → hebrewDateInit y 13 d = .ok (y, 13, d)) := by
  constructor
  · intro hL
    unfold hebrewDateInit
    rw [if_neg (by omega), if_neg (by omega), if_pos ⟨by simp [hL], rfl⟩]
  · intro hL d h1 h2
    have hml : monthLength y 13 = 29 := monthLength_13 y
    exact hebrewDateInit_ok y 13 d hy
      ((mem_monthsInYear y 13).mpr ⟨by omega, by omega, fun _ => hL⟩) h1 (by omega)

theorem C5_leap_month_witness :
    (1 ≤ 5783 ∧ (isLeap 5783 = false →
      hebrewDateInit 5783 13 1 = .error (.valueError "is not a leap year")))
    ∧ (1 ≤ 5784 ∧ (isLeap 5784 = true →
      hebrewDateInit 5784 13 10 = .ok (5784, 13, 10))) :=
  ⟨⟨by norm_num, (C5_leap_month 5783 (by norm_num)).1⟩,
   ⟨by norm_num, fun hL => (C5_leap_month 5784 (by norm_num)).2 hL 10 (by norm_num) (by norm_num)⟩⟩

lemma hebJdN_ge (y m d : ℕ) (hy : 1 ≤ y) : 347998 ≤ hebJdN y m d := by
  have := elapsedDays_pos y hy
  unfold hebJdN
  omega

lemma weekdayN_range (N : ℕ) : 1 ≤ weekdayN N ∧ weekdayN N ≤ 7 := by
  unfold weekdayN
  omega

/-- C6: `shabbos` is idempotent, always lands on weekday 7, and fixes exactly
the dates already on weekday 7; for a `HebrewDate` the result is again a
valid `HebrewDate` (the `JulianDay` and `GregorianDate` cases return their
own type by construction of `_to_x`, with the result's cached `jd` equal to
`shabbosZ`/`shabbosN` of the input's `jd`). -/
theorem C6_shabbos (N : ℤ) (M : ℕ) (y m d : ℕ) (hy : 1 ≤ y)
    (hm : m ∈ monthsInYear y) (hd1 : 1 ≤ d) (hd2 : d ≤ monthLength y m) :
    (shabbosZ (shabbosZ N) = shabbosZ N ∧ weekdayZ (shabbosZ N) = 7
      ∧ (shabbosZ N = N ↔ weekdayZ N = 7))
    ∧ (shabbosN (shabbosN M) = shabbosN M ∧ weekdayN (shabbosN M) = 7
      ∧ (shabbosN M = M ↔ weekdayN M = 7))
    ∧ (∃ y2 m2 d2, toHeb (shabbosN (hebJdN y m d)) = some (y2, m2, d2)
        ∧ 1 ≤ y2 ∧ m2 ∈ monthsInYear y2 ∧ 1 ≤ d2 ∧ d2 ≤ monthLength y2 m2
        ∧ hebJdN y2 m2 d2 = shabbosN (hebJdN y m d))
    ∧ (toHeb (shabbosN (hebJdN y m d)) = some (y, m, d)
        ↔ weekdayN (hebJdN y m d) = 7) := by
  refine ⟨⟨?_, ?_, ?_⟩, ⟨?_, ?_, ?_⟩, ?_, ?_⟩
  · unfold shabbosZ weekdayZ
    omega
  · unfold shabbosZ weekdayZ
    omega
  · unfold shabbosZ weekdayZ
    omega
  · unfold shabbosN weekdayN
    omega
  · unfold shabbosN weekdayN
    omega
  · unfold shabbosN weekdayN
    omega
  · obtain ⟨y2, m2, d2, hsome, hjd, h1, h2, h3, h4⟩ :=
      toHeb_total (shabbosN (hebJdN y m d))
        (le_trans (hebJdN_ge y m d hy) (by unfold shabbosN; omega))
    exact ⟨y2, m2, d2, hsome, h1, h2, h3, h4, hjd⟩
  · constructor
    · intro hsome
      obtain ⟨y2, m2, d2, hsome2, hjd, _, _, _, _⟩ :=
        toHeb_total (shabbosN (hebJdN y m d))
          (le_trans (hebJdN_ge y m d hy) (by unfold shabbosN; omega))
      rw [hsome] at hsome2
      obtain ⟨e1, e2, e3⟩ : y = y2 ∧ m = m2 ∧ d = d2 := by
        have := Option.some.inj hsome2
        exact ⟨congrArg Prod.fst this, congrArg (fun t => t.2.1) this,
          congrArg (fun t => t.2.2) this⟩
      subst e1; subst e2; subst e3
      have hr := weekdayN_range (hebJdN y m d)
      revert hjd
      unfold shabbosN
      omega
    · intro h7
      have hsh : shabbosN (hebJdN y m d) = hebJdN y m d := by
        unfold shabbosN
        omega
      rw [hsh]
      exact hebJdN_toHeb y m d hy hm hd1 hd2

theorem C6_shabbos_witness :
    ((1 : ℕ) ≤ 5781 ∧ (7 : ℕ) ∈ monthsInYear 5781 ∧ (1 : ℕ) ≤ 1
      ∧ 1 ≤ monthLength 5781 7)
    ∧ ((shabbosZ (shabbosZ 100) = shabbosZ 100 ∧ weekdayZ (shabbosZ 100) = 7
      ∧ (shabbosZ 100 = 100 ↔ weekdayZ 100 = 7))
    ∧ (shabbosN (shabbosN 2459100) = shabbosN 2459100
      ∧ weekdayN (shabbosN 2459100) = 7
      ∧ (shabbosN 2459100 = 2459100 ↔ weekdayN 2459100 = 7))
    ∧ (∃ y2 m2 d2, toHeb (shabbosN (hebJdN 5781 7 1)) = some (y2, m2, d2)
        ∧ 1 ≤ y2 ∧ m2 ∈ monthsInYear y2 ∧ 1 ≤ d2 ∧ d2 ≤ monthLength y2 m2
        ∧ hebJdN y2 m2 d2 = shabbosN (hebJdN 5781 7 1))
    ∧ (toHeb (shabbosN (hebJdN 5781 7 1)) = some (5781, 7, 1)
        ↔ weekdayN (hebJdN 5781 7 1) = 7)) :=
  ⟨⟨by norm_num, by decide, by norm_num, by decide⟩,
    C6_shabbos 100 2459100 5781 7 1 (by norm_num) (by decide) (by norm_num) (by decide)⟩

instance (y m d : ℕ) : Decidable (gregValid y m d) := by
  unfold gregValid; infer_instance

/-- C1: round-trip.  For every half-integer Julian day `n > 347997`
(`N = n + 1/2 ≥ 347998` in our integer representation),
`JulianDay(n).to_heb()` succeeds and the Hebrew date's recomputed `jd`
equals `n` again; and for every valid Gregorian date with year ≥ 1,
`GregorianDate(y,m,d).to_jd().to_greg()` returns `(y, m, d)`. -/
theorem C1_roundtrip (N : ℕ) (hN : 347998 ≤ N) (y m d : ℕ) (hy : 1 ≤ y)
    (hv : gregValid y m d) :
    (∃ yh mh dh, toHeb N = some (yh, mh, dh) ∧ hebJdN yh mh dh = N)
    ∧ toGregN (gregJdN y m d) = ((y : ℤ), (m : ℤ), (d : ℤ)) := by
  obtain ⟨yh, mh, dh, h1, h2, _⟩ := toHeb_total N hN
  exact ⟨⟨yh, mh, dh, h1, h2⟩, toGregN_gregJdN y m d hy hv⟩

theorem C1_roundtrip_witness :
    (347998 ≤ 2458343 ∧ 1 ≤ 2017 ∧ gregValid 2017 3 21)
    ∧ ((∃ yh mh dh, toHeb 2458343 = some (yh, mh, dh) ∧ hebJdN yh mh dh = 2458343)
    ∧ toGregN (gregJdN 2017 3 21) = ((2017 : ℤ), (3 : ℤ), (21 : ℤ))) :=
  ⟨⟨by norm_num, by norm_num, by decide⟩,
    C1_roundtrip 2458343 (by norm_num) 2017 3 21 (by norm_num) (by decide)⟩

/-- C9: for every Julian day strictly after the epoch, `to_heb` reaches the
`return` inside its month loop (no fall-through) and the returned triple
passes the `HebrewDate` constructor validation; equivalently, for every
Hebrew year the month lengths over the year's month list sum to exactly
`_days_in_year(year)`. -/
theorem C9_toHeb_safe (N y : ℕ) (hN : 347998 ≤ N) (hy : 1 ≤ y) :
    (∃ yh mh dh, toHeb N = some (yh, mh, dh)
      ∧ hebrewDateInit yh mh dh = .ok (yh, mh, dh))
    ∧ ((monthsInYear y).map (monthLength y)).sum = daysInYear y := by
  obtain ⟨yh, mh, dh, h1, _, h3, h4, h5, h6⟩ := toHeb_total N hN
  exact ⟨⟨yh, mh, dh, h1, hebrewDateInit_ok yh mh dh h3 h4 h5 h6⟩,
    sum_monthsInYear y hy⟩

theorem C9_toHeb_safe_witness :
    (347998 ≤ 2458343 ∧ 1 ≤ 5784)
    ∧ ((∃ yh mh dh, toHeb 2458343 = some (yh, mh, dh)
      ∧ hebrewDateInit yh mh dh = .ok (yh, mh, dh))
    ∧ ((monthsInYear 5784).map (monthLength 5784)).sum = daysInYear 5784) :=
  ⟨⟨by norm_num, by norm_num⟩, C9_toHeb_safe 2458343 5784 (by norm_num) (by norm_num)⟩

/-- C4: for every date (any Hebrew month `m ≤ 13`, any day, any weekday) and
flags, `_holiday` returns the fast-day name when the date is a fast day,
otherwise the festival name when the date is a festival, otherwise `None`
(the source checks the festival first, but no date is both, see
`fast_festival_disjoint`, so the fast day takes precedence as claimed). -/
theorem C4_holiday (y m d wd : ℕ) (hm : m ≤ 13) (israel hebrew : Bool) :
    holiday y m d wd israel hebrew
      = match fastDayString y m d wd hebrew with
        | some f => some f
        | none => festivalString y m d israel hebrew true := by
  unfold holiday fastDayString festivalString
  cases hf : fastDay y m d wd
  · cases festival y m d israel true <;> rfl
  · rw [fast_festival_disjoint y m d wd hm israel _ hf]
    rfl

theorem C4_holiday_witness :
    (7 : ℕ) ≤ 13
    ∧ holiday 5784 7 3 3 false false
      = match fastDayString 5784 7 3 3 false with
        | some f => some f
        | none => festivalString 5784 7 3 false false true :=
  ⟨by norm_num, C4_holiday 5784 7 3 3 (by norm_num) false false⟩

/-- C7: `getparsha` on the Gregorian date 2017-03-21 with `israel = False`
returns the double reading Vayakhel–Pekudei, the parsha index list
`[21, 22]` (the lookup in the generated year table succeeds, inner value
`some [21, 22]`). -/
theorem C7_getparsha : getparsha (gregJdN 2017 3 21) false = some (some [21, 22]) := by
  decide

/-- C8 counterexample: adding the non-integral float `0.5` to the date with
day number `2458343` (julian day `2458342.5`) does not raise a `TypeError`:
it silently returns a date, snapped back to julian day `2458342.5`. -/
theorem C8_float_add_no_error :
    dateAdd ((2458343 : ℚ) - 1/2) (.float (1/2))
      = .ok (.date ((2458343 : ℚ) - 1/2)) := by
  have h : (2458343 : ℚ) - 1/2 + 1/2 = (2458343 : ℚ) := by ring
  simp only [dateAdd, h]
  unfold julianDayInit pyInt
  norm_num

/-- C8 (amended): date `+ other` and date `- other` raise `TypeError` exactly
for the non-numeric operands — for `__add__` everything but `int` and
`float`, for `__sub__` everything but `int`, `float` and another date; a
numeric operand never raises, it is silently snapped to a date. -/
theorem C8_arith_typeerror (jd : ℚ) (other : PyVal) :
    ((∃ e, dateAdd jd other = .error e)
        ↔ (∀ n, other ≠ .int n) ∧ (∀ q, other ≠ .float q))
    ∧ ((∃ e, dateSub jd other = .error e)
        ↔ (∀ n, other ≠ .int n) ∧ (∀ q, other ≠ .float q) ∧ (∀ M, other ≠ .date M)) := by
  cases other <;> simp [dateAdd, dateSub]

/-- C10: for every valid `Month(year, month)` (year at least 1 and `month`
a month of that year, leap years including Adar Sheni) and every
non-negative integer `n`, `(Month(year, month) + n) - n == Month(year,
month)`: the wraparound walks forward across year boundaries by each
traversed year\x27s 12 or 13 months and back again. -/
theorem C10_month_roundtrip (y m n : ℕ) (hy : 1 ≤ y) (hm : m ∈ monthsInYear y) :
    monthSub (monthAdd y m n).1 (monthAdd y m n).2 n = (y, m) := by
  obtain ⟨h1, h2, h3⟩ := monthAdd_spec n y m hy hm
  exact monthSub_spec n _ _ y m hy h1 hm h2 h3

theorem C10_month_roundtrip_witness :
    (1 ≤ 5784 ∧ 12 ∈ monthsInYear 5784)
    ∧ monthSub (monthAdd 5784 12 20).1 (monthAdd 5784 12 20).2 20 = (5784, 12) :=
  ⟨⟨by norm_num, by decide⟩, C10_month_roundtrip 5784 12 20 (by norm_num) (by decide)⟩

end Pyluach
